import Mathlib

/-!
Verification of the SuperMall catalog data layer.

The persistence gateway (`FirebaseService`) and the three catalog services
(`ShopService`, `ProductService`, `OfferService`) are embedded shallowly.
Modelling conventions, fixed once here:

* JS values are modelled by `JsVal`; JS objects are ordered association
  lists with unique keys (`Obj`), mirroring spread/merge semantics.
* `undefined` is modelled as absence: a missing field reads as `none`.
* Timestamps (ISO strings in the source) are modelled as rational numbers;
  chronological comparison of ISO strings coincides with numeric order.
* `initializeFirebase` in the source sets `isFirebaseAvailable = false` on
  every path, so only the localStorage fallback branch of the gateway is
  reachable; that branch is the one embedded here.
* String-to-number coercion cases of JS that no claim exercises
  (for example a numeric string in a numeric field) are not modelled;
  numeric fields carry `JsVal.num` values.
* Logging is a no-op side channel and is omitted.
-/

namespace SuperMall

/-- A JavaScript value (the fragment the catalog layer manipulates). -/
inductive JsVal where
  | null : JsVal
  | bool (b : Bool) : JsVal
  | num (q : ℚ) : JsVal
  | str (s : String) : JsVal
  | obj (fields : List (String × JsVal)) : JsVal
  | arr (elems : List JsVal) : JsVal
deriving Repr

mutual

def JsVal.decEq : (a b : JsVal) → Decidable (a = b)
  | .null, .null => .isTrue rfl
  | .bool a, .bool b =>
      if h : a = b then .isTrue (by rw [h]) else .isFalse (by intro he; injection he; contradiction)
  | .num a, .num b =>
      if h : a = b then .isTrue (by rw [h]) else .isFalse (by intro he; injection he; contradiction)
  | .str a, .str b =>
      if h : a = b then .isTrue (by rw [h]) else .isFalse (by intro he; injection he; contradiction)
  | .obj a, .obj b =>
      match JsVal.decEqFields a b with
      | .isTrue h => .isTrue (by rw [h])
      | .isFalse h => .isFalse (by intro he; injection he; contradiction)
  | .arr a, .arr b =>
      match JsVal.decEqList a b with
      | .isTrue h => .isTrue (by rw [h])
      | .isFalse h => .isFalse (by intro he; injection he; contradiction)
  | .null, .bool _ => .isFalse nofun
  | .null, .num _ => .isFalse nofun
  | .null, .str _ => .isFalse nofun
  | .null, .obj _ => .isFalse nofun
  | .null, .arr _ => .isFalse nofun
  | .bool _, .null => .isFalse nofun
  | .bool _, .num _ => .isFalse nofun
  | .bool _, .str _ => .isFalse nofun
  | .bool _, .obj _ => .isFalse nofun
  | .bool _, .arr _ => .isFalse nofun
  | .num _, .null => .isFalse nofun
  | .num _, .bool _ => .isFalse nofun
  | .num _, .str _ => .isFalse nofun
  | .num _, .obj _ => .isFalse nofun
  | .num _, .arr _ => .isFalse nofun
  | .str _, .null => .isFalse nofun
  | .str _, .bool _ => .isFalse nofun
  | .str _, .num _ => .isFalse nofun
  | .str _, .obj _ => .isFalse nofun
  | .str _, .arr _ => .isFalse nofun
  | .obj _, .null => .isFalse nofun
  | .obj _, .bool _ => .isFalse nofun
  | .obj _, .num _ => .isFalse nofun
  | .obj _, .str _ => .isFalse nofun
  | .obj _, .arr _ => .isFalse nofun
  | .arr _, .null => .isFalse nofun
  | .arr _, .bool _ => .isFalse nofun
  | .arr _, .num _ => .isFalse nofun
  | .arr _, .str _ => .isFalse nofun
  | .arr _, .obj _ => .isFalse nofun

def JsVal.decEqFields : (a b : List (String × JsVal)) → Decidable (a = b)
  | [], [] => .isTrue rfl
  | [], _ :: _ => .isFalse nofun
  | _ :: _, [] => .isFalse nofun
  | (k, v) :: as, (k2, v2) :: bs =>
      if hk : k = k2 then
        match JsVal.decEq v v2 with
        | .isTrue hv =>
            match JsVal.decEqFields as bs with
            | .isTrue ht => .isTrue (by rw [hk, hv, ht])
            | .isFalse ht => .isFalse (by intro he; injection he; contradiction)
        | .isFalse hv =>
            .isFalse (by
              intro he; injection he with h1 _; injection h1; contradiction)
      else
        .isFalse (by
          intro he; injection he with h1 _; injection h1; contradiction)

def JsVal.decEqList : (a b : List JsVal) → Decidable (a = b)
  | [], [] => .isTrue rfl
  | [], _ :: _ => .isFalse nofun
  | _ :: _, [] => .isFalse nofun
  | v :: as, v2 :: bs =>
      match JsVal.decEq v v2 with
      | .isTrue hv =>
          match JsVal.decEqList as bs with
          | .isTrue ht => .isTrue (by rw [hv, ht])
          | .isFalse ht => .isFalse (by intro he; injection he; contradiction)
      | .isFalse hv => .isFalse (by intro he; injection he; contradiction)

end

instance : DecidableEq JsVal := JsVal.decEq

/-- A JS object: an insertion-ordered association list with unique keys. -/
abbrev Obj := List (String × JsVal)

/-- Field lookup, `o[k]`; `none` models `undefined`. -/
def getField : Obj → String → Option JsVal
  | [], _ => none
  | (k', v) :: rest, k => if k' = k then some v else getField rest k

/-- `{...o, k: v}`: overwrite `k` in place if present, else append it. -/
def setField : Obj → String → JsVal → Obj
  | [], k, v => [(k, v)]
  | (k', v') :: rest, k, v =>
      if k' = k then (k, v) :: rest else (k', v') :: setField rest k v

/-- `{...a, ...b}`: merge `b` onto `a`, left to right. -/
def mergeFields (a b : Obj) : Obj :=
  b.foldl (fun acc kv => setField acc kv.1 kv.2) a

/-- JS truthiness of a defined value. -/
def truthy : JsVal → Bool
  | .null => false
  | .bool b => b
  | .num q => q ≠ 0
  | .str s => s ≠ ""
  | .obj _ => true
  | .arr _ => true

/-- JS truthiness of a possibly-`undefined` value. -/
def truthyOpt : Option JsVal → Bool
  | none => false
  | some v => truthy v

/-- JS strict equality `===` restricted to this model: structural on
primitives; objects and arrays compare by reference, and the two sides of
every `===` in the embedded code are distinct references, hence `false`. -/
def jsEq : JsVal → JsVal → Bool
  | .null, .null => true
  | .bool a, .bool b => a = b
  | .num a, .num b => a = b
  | .str a, .str b => a = b
  | _, _ => false

/-- Numeric value of a field, defaulting to `0` (used by sort comparators,
mirroring `a.price - b.price` style arithmetic). -/
def recNum (r : Obj) (k : String) : ℚ :=
  match getField r k with
  | some (.num q) => q
  | _ => 0

/-- String value of a field, defaulting to `""` (sort comparators). -/
def recStr (r : Obj) (k : String) : String :=
  match getField r k with
  | some (.str s) => s
  | _ => ""

/-- `r.stats?.k || 0`. -/
def statNum (r : Obj) (k : String) : ℚ :=
  match getField r "stats" with
  | some (.obj s) =>
      match getField s k with
      | some (.num q) => q
      | _ => 0
  | _ => 0

/-- `new Date(v).getTime()` for a date-valued field; `none` models an
invalid date (`NaN`), whose comparisons are all false. -/
def dateVal : Option JsVal → Option ℚ
  | some (.num q) => some q
  | _ => none

/-- `item.id === id` for a string `id`. -/
def idMatches (item : Obj) (id : String) : Bool :=
  match getField item "id" with
  | some (.str s) => s = id
  | _ => false

/-- The three catalog collections the claims touch. -/
inductive Coll where
  | shops : Coll
  | products : Coll
  | offers : Coll
deriving DecidableEq, Repr

/-- The fallback store: one record list per collection (the
localStorage entries `supermall_shops` / `_products` / `_offers`). -/
structure Store where
  shops : List Obj
  products : List Obj
  offers : List Obj
deriving DecidableEq, Repr

def Store.get (st : Store) : Coll → List Obj
  | .shops => st.shops
  | .products => st.products
  | .offers => st.offers

def Store.put (st : Store) : Coll → List Obj → Store
  | .shops, l => { st with shops := l }
  | .products, l => { st with products := l }
  | .offers, l => { st with offers := l }

/-- A query-filter object: values may be `undefined` (`none`). -/
abbrev Filters := List (String × Option JsVal)

/-- Lookup in a filter object; an absent key reads as `undefined`. -/
def getFilter (fs : Filters) (k : String) : Option JsVal :=
  match fs with
  | [] => none
  | (k', v) :: rest => if k' = k then v else getFilter rest k

/-- `{...filters, k: v}` on a filter object. -/
def setFilter (fs : Filters) (k : String) (v : Option JsVal) : Filters :=
  match fs with
  | [] => [(k, v)]
  | (k', v') :: rest =>
      if k' = k then (k, v) :: rest else (k', v') :: setFilter rest k v

namespace FirebaseService

/-- The record persisted by `create` on the fallback branch:
`{...data, id: this.generateId(), createdAt: new Date().toISOString()}`.
The generated identifier is passed in as `newId`. -/
def createdItem (data : Obj) (newId : String) (now : ℚ) : Obj :=
  setField (setField data "id" (.str newId)) "createdAt" (.num now)

/-- `FirebaseService.create` (fallback branch): appends the new record and
returns its identifier. -/
def create (st : Store) (c : Coll) (data : Obj) (newId : String) (now : ℚ) :
    String × Store :=
  (newId, st.put c (st.get c ++ [createdItem data newId now]))

/-- `FirebaseService.read` with an identifier (fallback branch):
`items.find(item => item.id === id) || null`. -/
def read (st : Store) (c : Coll) (id : String) : Option Obj :=
  (st.get c).find? (fun item => idMatches item id)

/-- `FirebaseService.read` without an identifier (fallback branch). -/
def readAll (st : Store) (c : Coll) : List Obj :=
  st.get c

/-- One step of `FirebaseService.update`'s fallback branch: replace the
first record whose `id` matches with
`{...items[index], ...data, updatedAt: ...}`; `none` when no index matches. -/
def updateById (items : List Obj) (id : String) (data : Obj) (now : ℚ) :
    Option (List Obj) :=
  match items with
  | [] => none
  | item :: rest =>
      if idMatches item id then
        some (setField (mergeFields item data) "updatedAt" (.num now) :: rest)
      else
        (updateById rest id data now).map (fun r => item :: r)

/-- `FirebaseService.update` (fallback branch). The merge is a flat,
top-level spread: a dotted key such as `"stats.views"` is stored as a
literal property name, not as a nested path. -/
def update (st : Store) (c : Coll) (id : String) (data : Obj) (now : ℚ) :
    Except String Store :=
  match updateById (st.get c) id data now with
  | some items => .ok (st.put c items)
  | none => .error "Document not found"

/-- One equality filter of `FirebaseService.query`:
`item[key] === filters[key]`, with the `priceRange` special case
`(!min || item.price >= min) && (!max || item.price <= max)`. -/
def passesFilter (item : Obj) (key : String) (fv : JsVal) : Bool :=
  if key = "priceRange" then
    match fv with
    | .obj pr =>
        (match getFilterBound pr "min" with
         | none => true
         | some m =>
             match getField item "price" with
             | some (.num p) => m ≤ p
             | _ => false) &&
        (match getFilterBound pr "max" with
         | none => true
         | some m =>
             match getField item "price" with
             | some (.num p) => p ≤ m
             | _ => false)
    | _ => true
  else
    match getField item key with
    | some v => jsEq v fv
    | none => false
where
  /-- `!min` skips a falsy bound; a truthy numeric bound is enforced. -/
  getFilterBound (pr : Obj) (k : String) : Option ℚ :=
    match getField pr k with
    | some (.num m) => if m = 0 then none else some m
    | _ => none

/-- `FirebaseService.query`: reads the whole collection, then applies every
filter entry in key order, skipping values that are `undefined`, `null` or
`''`. Every key of the filter object participates — including keys such as
`includeInactive`, `includeExpired` or `sortBy` that the services leave in
the object they pass down. -/
def query (st : Store) (c : Coll) (filters : Filters) : List Obj :=
  filters.foldl
    (fun items kv =>
      match kv.2 with
      | none => items
      | some v =>
          if v = .null ∨ v = .str "" then items
          else items.filter (fun item => passesFilter item kv.1 v))
    (readAll st c)

end FirebaseService

/-- A character admissible in the email regex classes `[^\s@]`. -/
def isEmailAtomChar (c : Char) : Bool :=
  !c.isWhitespace && c ≠ '@'

/-- Split a character list at the first occurrence of `c`. -/
def splitAtChar (c : Char) : List Char → Option (List Char × List Char)
  | [] => none
  | x :: xs =>
      if x = c then some ([], xs)
      else (splitAtChar c xs).map (fun p => (x :: p.1, p.2))

/-- `isValidEmail` from `helpers.js`: the regex
`^[^\s@]+@[^\s@]+\.[^\s@]+$` accepts exactly the strings with a single
`@`, a nonempty whitespace-free local part, and a domain of `[^\s@]`
characters containing a dot that is neither its first nor last character. -/
def isValidEmail (email : String) : Bool :=
  match splitAtChar '@' email.toList with
  | none => false
  | some (lp, dom) =>
      !lp.isEmpty && lp.all (fun c => !c.isWhitespace) &&
      !dom.isEmpty && dom.all isEmailAtomChar &&
      ((dom.drop 1).dropLast).contains '.'

/-- `isValidPhone` from `helpers.js`: strip spaces, hyphens and
parentheses, then match `^[\+]?[1-9][\d]{0,15}$`. -/
def isValidPhone (phone : String) : Bool :=
  let stripped := phone.toList.filter
    (fun c => !(c.isWhitespace || c = '-' || c = '(' || c = ')'))
  let digits := match stripped with
    | '+' :: r => r
    | r => r
  match digits with
  | [] => false
  | d :: ds => ('1' ≤ d && d ≤ '9') && ds.length ≤ 15 && ds.all Char.isDigit

/-- The required-field loop of the shop and offer validators:
`if (!data[field]) throw new Error(field + ' is required')`. -/
def checkRequiredTruthy (d : Obj) : List String → Except String Unit
  | [] => .ok ()
  | f :: fs =>
      if truthyOpt (getField d f) then checkRequiredTruthy d fs
      else .error (f ++ " is required")

/-- The required-field loop of the product validator:
`if (data[field] === undefined || data[field] === null) throw`. -/
def checkRequiredPresent (d : Obj) : List String → Except String Unit
  | [] => .ok ()
  | f :: fs =>
      match getField d f with
      | none => .error (f ++ " is required")
      | some .null => .error (f ++ " is required")
      | some _ => checkRequiredPresent d fs

/-- `if (data[field] && data[field].trim().length < minLen) throw msg`.
A truthy non-string field would make `.trim()` raise a `TypeError`. -/
def strMinCheck (d : Obj) (field : String) (minLen : Nat) (msg : String) :
    Except String Unit :=
  match getField d field with
  | some (.str s) => if s ≠ "" ∧ s.trim.length < minLen then .error msg else .ok ()
  | some v => if truthy v then .error "TypeError" else .ok ()
  | none => .ok ()

namespace ShopService

/-- `ShopService.validateShopData`. Fails fast, in source order. -/
def validateShopData (d : Obj) (isUpdate : Bool) : Except String Unit := do
  checkRequiredTruthy d
    (if isUpdate then [] else ["name", "description", "category", "floor", "contact"])
  strMinCheck d "name" 2 "Shop name must be at least 2 characters long"
  strMinCheck d "description" 10 "Shop description must be at least 10 characters long"
  -- if (shopData.floor && (shopData.floor < 1 || shopData.floor > 10)) throw
  (match getField d "floor" with
   | some (.num q) =>
       if q ≠ 0 ∧ (q < 1 ∨ 10 < q) then .error "Floor must be between 1 and 10"
       else .ok ()
   | _ => .ok ())
  -- contact email / phone format checks
  (match getField d "contact" with
   | some (.obj contact) => do
       (match getField contact "email" with
        | some (.str s) =>
            if s ≠ "" ∧ ¬ isValidEmail s then .error "Invalid email format" else .ok ()
        | some v => if truthy v then .error "Invalid email format" else .ok ()
        | none => .ok ())
       (match getField contact "phone" with
        | some (.str s) =>
            if s ≠ "" ∧ ¬ isValidPhone s then .error "Invalid phone number format" else .ok ()
        | some v => if truthy v then .error "Invalid phone number format" else .ok ()
        | none => .ok ())
   | _ => .ok ())

/-- The zeroed stats object stamped by `createShop`. -/
def shopZeroStats : JsVal :=
  .obj [("totalProducts", .num 0), ("totalOffers", .num 0), ("views", .num 0),
        ("rating", .num 0), ("reviews", .num 0)]

/-- `ShopService.createShop`: validate, then gateway-create
`{...shopData, isActive: true, createdBy: uid, stats: {...zeroes}}`. -/
def createShop (st : Store) (shopData : Obj) (uid newId : String) (now : ℚ) :
    Except String (String × Store) := do
  validateShopData shopData false
  .ok (FirebaseService.create st .shops
    (mergeFields shopData
      [("isActive", .bool true), ("createdBy", .str uid), ("stats", shopZeroStats)])
    newId now)

/-- `filters.sortBy || defaultKey`. -/
def sortKeyOf (filters : Filters) (defaultKey : JsVal) : JsVal :=
  match getFilter filters "sortBy" with
  | some v => if truthy v then v else defaultKey
  | none => defaultKey

/-- `ShopService.sortShops`. Each comparator-driven `Array.sort` is
modelled by an insertion sort over the corresponding total preorder. -/
def sortShops (shops : List Obj) (sortBy : JsVal) : List Obj :=
  match sortBy with
  | .str "name" => shops.insertionSort (fun a b => recStr a "name" ≤ recStr b "name")
  | .str "category" => shops.insertionSort (fun a b => recStr a "category" ≤ recStr b "category")
  | .str "floor" => shops.insertionSort (fun a b => recNum a "floor" ≤ recNum b "floor")
  | .str "newest" => shops.insertionSort (fun a b => recNum b "createdAt" ≤ recNum a "createdAt")
  | .str "oldest" => shops.insertionSort (fun a b => recNum a "createdAt" ≤ recNum b "createdAt")
  | .str "views" => shops.insertionSort (fun a b => statNum b "views" ≤ statNum a "views")
  | .str "rating" => shops.insertionSort (fun a b => statNum b "rating" ≤ statNum a "rating")
  | _ => shops

/-- `ShopService.getShops`: gateway query with the whole caller filter
object spread in, `isActive` forced to `true` unless
`filters.includeInactive` is truthy, then an in-memory sort. -/
def getShops (filters : Filters) (st : Store) : List Obj :=
  let qf := setFilter filters "isActive"
    (if truthyOpt (getFilter filters "includeInactive") then none else some (.bool true))
  sortShops (FirebaseService.query st .shops qf) (sortKeyOf filters (.str "name"))

/-- `ShopService.incrementShopViews`: best-effort read-modify-write of
`stats.views` / `stats.lastViewed` through a dotted-key patch; every
failure is swallowed. -/
def incrementShopViews (st : Store) (shopId : String) (now : ℚ) : Store :=
  match FirebaseService.read st .shops shopId with
  | none => st
  | some shop =>
      match FirebaseService.update st .shops shopId
        [("stats.views", .num (statNum shop "views" + 1)),
         ("stats.lastViewed", .num now)] now with
      | .ok st' => st'
      | .error _ => st

/-- `ShopService.getShopById`: read, fail when absent, then increment the
view counter; the record returned is the one read before the increment. -/
def getShopById (st : Store) (shopId : String) (now : ℚ) :
    Except String (Obj × Store) :=
  match FirebaseService.read st .shops shopId with
  | none => .error "Shop not found"
  | some shop => .ok (shop, incrementShopViews st shopId now)

/-- `ShopService.deleteShop`: refuse while any product row carries this
`shopId`, otherwise soft-delete through the gateway update. -/
def deleteShop (st : Store) (shopId uid : String) (now : ℚ) :
    Except String Store :=
  let products := FirebaseService.query st .products [("shopId", some (.str shopId))]
  if 0 < products.length then
    .error "Cannot delete shop with existing products. Please remove all products first."
  else
    FirebaseService.update st .shops shopId
      [("isActive", .bool false), ("deletedAt", .num now), ("deletedBy", .str uid)] now

end ShopService

namespace ProductService

/-- `ProductService.validateProductData`. Fails fast, in source order. -/
def validateProductData (d : Obj) (isUpdate : Bool) : Except String Unit := do
  checkRequiredPresent d
    (if isUpdate then [] else ["name", "description", "price", "category", "shopId", "stock"])
  strMinCheck d "name" 2 "Product name must be at least 2 characters long"
  strMinCheck d "description" 10 "Product description must be at least 10 characters long"
  -- if (price !== undefined && (price < 0 || isNaN(price))) throw
  (match getField d "price" with
   | none => .ok ()
   | some (.num q) =>
       if q < 0 then .error "Price must be a valid positive number" else .ok ()
   | some .null => .ok ()
   | some (.bool _) => .ok ()
   | some _ => .error "Price must be a valid positive number")
  -- if (stock !== undefined && (stock < 0 || !Number.isInteger(stock))) throw
  (match getField d "stock" with
   | none => .ok ()
   | some (.num q) =>
       if q < 0 ∨ q.den ≠ 1 then .error "Stock must be a valid non-negative integer"
       else .ok ()
   | some _ => .error "Stock must be a valid non-negative integer")

/-- The zeroed stats object stamped by `createProduct`. -/
def productZeroStats : JsVal :=
  .obj [("views", .num 0), ("purchases", .num 0), ("rating", .num 0), ("reviews", .num 0)]

/-- `ProductService.createProduct`. -/
def createProduct (st : Store) (productData : Obj) (uid newId : String) (now : ℚ) :
    Except String (String × Store) := do
  validateProductData productData false
  .ok (FirebaseService.create st .products
    (mergeFields productData
      [("isActive", .bool true), ("createdBy", .str uid), ("stats", productZeroStats)])
    newId now)

/-- `ProductService.sortProducts`. -/
def sortProducts (products : List Obj) (sortBy : JsVal) : List Obj :=
  match sortBy with
  | .str "name" => products.insertionSort (fun a b => recStr a "name" ≤ recStr b "name")
  | .str "price_low" => products.insertionSort (fun a b => recNum a "price" ≤ recNum b "price")
  | .str "price_high" => products.insertionSort (fun a b => recNum b "price" ≤ recNum a "price")
  | .str "category" => products.insertionSort (fun a b => recStr a "category" ≤ recStr b "category")
  | .str "newest" => products.insertionSort (fun a b => recNum b "createdAt" ≤ recNum a "createdAt")
  | .str "oldest" => products.insertionSort (fun a b => recNum a "createdAt" ≤ recNum b "createdAt")
  | .str "stock" => products.insertionSort (fun a b => recNum b "stock" ≤ recNum a "stock")
  | .str "views" => products.insertionSort (fun a b => statNum b "views" ≤ statNum a "views")
  | .str "rating" => products.insertionSort (fun a b => statNum b "rating" ≤ statNum a "rating")
  | _ => products

/-- `ProductService.getProducts`. -/
def getProducts (filters : Filters) (st : Store) : List Obj :=
  let qf := setFilter filters "isActive"
    (if truthyOpt (getFilter filters "includeInactive") then none else some (.bool true))
  sortProducts (FirebaseService.query st .products qf)
    (ShopService.sortKeyOf filters (.str "name"))

/-- `ProductService.incrementProductViews`: best-effort, mirrors the shop
variant. -/
def incrementProductViews (st : Store) (productId : String) (now : ℚ) : Store :=
  match FirebaseService.read st .products productId with
  | none => st
  | some product =>
      match FirebaseService.update st .products productId
        [("stats.views", .num (statNum product "views" + 1)),
         ("stats.lastViewed", .num now)] now with
      | .ok st' => st'
      | .error _ => st

/-- `ProductService.getProductById`. -/
def getProductById (st : Store) (productId : String) (now : ℚ) :
    Except String (Obj × Store) :=
  match FirebaseService.read st .products productId with
  | none => .error "Product not found"
  | some product => .ok (product, incrementProductViews st productId now)

/-- `ProductService.deleteProduct`: unconditional soft delete. -/
def deleteProduct (st : Store) (productId uid : String) (now : ℚ) :
    Except String Store :=
  FirebaseService.update st .products productId
    [("isActive", .bool false), ("deletedAt", .num now), ("deletedBy", .str uid)] now

/-- One row of a common-feature entry:
`{productId: product.id, productName: product.name, value}`. -/
structure FeatureEntry where
  productId : Option JsVal
  productName : Option JsVal
  value : JsVal
deriving DecidableEq, Repr

/-- The specification pairs of a product; a non-object (or absent)
`specifications` contributes nothing. -/
def specPairs (p : Obj) : Obj :=
  match getField p "specifications" with
  | some (.obj s) => s
  | _ => []

def mkEntry (p : Obj) (v : JsVal) : FeatureEntry :=
  { productId := getField p "id", productName := getField p "name", value := v }

/-- `acc[key].push(entry)`, creating `acc[key]` when absent. -/
def pushFeature : List (String × List FeatureEntry) → String → FeatureEntry →
    List (String × List FeatureEntry)
  | [], k, e => [(k, [e])]
  | (k', l) :: rest, k, e =>
      if k' = k then (k', l ++ [e]) :: rest
      else (k', l) :: pushFeature rest k e

/-- The inner `Object.keys(product.specifications).forEach` loop. -/
def pushProductFeatures (acc : List (String × List FeatureEntry)) (p : Obj) :
    List (String × List FeatureEntry) :=
  (specPairs p).foldl (fun a kv => pushFeature a kv.1 (mkEntry p kv.2)) acc

/-- The `allFeatures` accumulator of `extractCommonFeatures`. -/
def collectFeatures (products : List Obj) : List (String × List FeatureEntry) :=
  products.foldl pushProductFeatures []

/-- `ProductService.extractCommonFeatures`: keep the keys whose entry list
has length at least 2. -/
def extractCommonFeatures (products : List Obj) : List (String × List FeatureEntry) :=
  (collectFeatures products).filter (fun kv => 2 ≤ kv.2.length)

/-- `[...new Set(xs)]`: deduplicate keeping first occurrences. -/
def jsDedupAux {α : Type} [DecidableEq α] (seen : List α) : List α → List α
  | [] => []
  | x :: xs =>
      if x ∈ seen then jsDedupAux seen xs else x :: jsDedupAux (x :: seen) xs

def jsDedup {α : Type} [DecidableEq α] (xs : List α) : List α :=
  jsDedupAux [] xs

/-- `Math.min(...)` over a list (the list is nonempty at every use site). -/
def listMin : List ℚ → ℚ
  | [] => 0
  | x :: xs => xs.foldl min x

/-- `Math.max(...)` over a list. -/
def listMax : List ℚ → ℚ
  | [] => 0
  | x :: xs => xs.foldl max x

/-- `p.stock > 0`. -/
def stockPositive (p : Obj) : Bool :=
  match getField p "stock" with
  | some (.num q) => 0 < q
  | _ => false

/-- `p.stock === 0`. -/
def stockZero (p : Obj) : Bool :=
  match getField p "stock" with
  | some (.num q) => q = 0
  | _ => false

/-- The comparison object built by `compareProducts` (its `metadata`
timestamps and actor are attribution only and are omitted). -/
structure Comparison where
  products : List Obj
  priceMin : ℚ
  priceMax : ℚ
  priceAverage : ℚ
  features : List (String × List FeatureEntry)
  categories : List (Option JsVal)
  shops : List (Option JsVal)
  inStock : Nat
  outOfStock : Nat
deriving DecidableEq, Repr

/-- The products that resolve: `products.filter(p => p !== null)` after
reading every requested identifier. -/
def resolvedProducts (st : Store) (productIds : List String) : List Obj :=
  (productIds.map (fun id => FirebaseService.read st .products id)).filterMap id

/-- `ProductService.compareProducts`. -/
def compareProducts (st : Store) (productIds : List String) :
    Except String Comparison := do
  if productIds.length < 2 then
    throw "At least 2 products are required for comparison"
  if 4 < productIds.length then
    throw "Maximum 4 products can be compared at once"
  let validProducts := resolvedProducts st productIds
  if validProducts.length < 2 then
    throw "At least 2 valid products are required for comparison"
  let prices := validProducts.map (fun p => recNum p "price")
  .ok
    { products := validProducts
      priceMin := listMin prices
      priceMax := listMax prices
      priceAverage := prices.sum / validProducts.length
      features := extractCommonFeatures validProducts
      categories := jsDedup (validProducts.map (fun p => getField p "category"))
      shops := jsDedup (validProducts.map (fun p => getField p "shopId"))
      inStock := (validProducts.filter stockPositive).length
      outOfStock := (validProducts.filter stockZero).length }

end ProductService

namespace OfferService

/-- `OfferService.validateOfferData`. Fails fast, in source order. The
required-field loop tests truthiness, so a `0` discount trips it. -/
def validateOfferData (d : Obj) (isUpdate : Bool) (now : ℚ) : Except String Unit := do
  checkRequiredTruthy d
    (if isUpdate then []
     else ["title", "description", "discount", "shopId", "validFrom", "validTo"])
  strMinCheck d "title" 3 "Offer title must be at least 3 characters long"
  strMinCheck d "description" 10 "Offer description must be at least 10 characters long"
  -- if (discount !== undefined && (discount < 0 || discount > 100)) throw
  (match getField d "discount" with
   | some (.num q) =>
       if q < 0 ∨ 100 < q then .error "Discount must be between 0 and 100 percent"
       else .ok ()
   | _ => .ok ())
  -- if (offerData.validFrom && offerData.validTo) { ordering and future checks }
  (if truthyOpt (getField d "validFrom") && truthyOpt (getField d "validTo") then
     match dateVal (getField d "validFrom"), dateVal (getField d "validTo") with
     | some f, some t =>
         if t ≤ f then .error "Valid from date must be before valid to date"
         else if t ≤ now then .error "Valid to date must be in the future"
         else .ok ()
     | _, _ => .ok ()
   else .ok ())

/-- The zeroed stats object stamped by `createOffer`. -/
def offerZeroStats : JsVal :=
  .obj [("views", .num 0), ("clicks", .num 0), ("conversions", .num 0)]

/-- `OfferService.createOffer`. -/
def createOffer (st : Store) (offerData : Obj) (uid newId : String) (now : ℚ) :
    Except String (String × Store) := do
  validateOfferData offerData false now
  .ok (FirebaseService.create st .offers
    (mergeFields offerData
      [("isActive", .bool true), ("createdBy", .str uid), ("stats", offerZeroStats)])
    newId now)

/-- `now >= new Date(offer.validFrom) && now <= new Date(offer.validTo)`;
a comparison against an invalid date is false. -/
def offerValidNow (o : Obj) (now : ℚ) : Bool :=
  match dateVal (getField o "validFrom"), dateVal (getField o "validTo") with
  | some f, some t => f ≤ now && now ≤ t
  | _, _ => false

/-- `OfferService.sortOffers`. -/
def sortOffers (offers : List Obj) (sortBy : JsVal) : List Obj :=
  match sortBy with
  | .str "title" => offers.insertionSort (fun a b => recStr a "title" ≤ recStr b "title")
  | .str "discount_high" => offers.insertionSort (fun a b => recNum b "discount" ≤ recNum a "discount")
  | .str "discount_low" => offers.insertionSort (fun a b => recNum a "discount" ≤ recNum b "discount")
  | .str "newest" => offers.insertionSort (fun a b => recNum b "createdAt" ≤ recNum a "createdAt")
  | .str "oldest" => offers.insertionSort (fun a b => recNum a "createdAt" ≤ recNum b "createdAt")
  | .str "expiry" => offers.insertionSort (fun a b => recNum a "validTo" ≤ recNum b "validTo")
  | .str "views" => offers.insertionSort (fun a b => statNum b "views" ≤ statNum a "views")
  | .str "clicks" => offers.insertionSort (fun a b => statNum b "clicks" ≤ statNum a "clicks")
  | _ => offers

/-- `OfferService.getOffers`: gateway query with the caller filter object
spread in, a validity-window filter unless `filters.includeExpired` is
truthy, then an in-memory sort defaulting to `newest`. -/
def getOffers (filters : Filters) (st : Store) (now : ℚ) : List Obj :=
  let qf := setFilter filters "isActive"
    (if truthyOpt (getFilter filters "includeInactive") then none else some (.bool true))
  let offers := FirebaseService.query st .offers qf
  let validOffers :=
    if truthyOpt (getFilter filters "includeExpired") then offers
    else offers.filter (fun o => offerValidNow o now)
  sortOffers validOffers (ShopService.sortKeyOf filters (.str "newest"))

/-- `OfferService.getExpiredOffers`: fetch with `includeExpired: true`,
then keep the offers with `validTo` strictly in the past. -/
def getExpiredOffers (st : Store) (now : ℚ) : List Obj :=
  (getOffers [("includeExpired", some (.bool true))] st now).filter
    (fun o =>
      match dateVal (getField o "validTo") with
      | some t => t < now
      | none => false)

/-- `OfferService.deleteOffer`: unconditional soft delete. -/
def deleteOffer (st : Store) (offerId uid : String) (now : ℚ) :
    Except String Store :=
  FirebaseService.update st .offers offerId
    [("isActive", .bool false), ("deletedAt", .num now), ("deletedBy", .str uid)] now

end OfferService

/-! ### Basic lemmas about the object model -/

theorem getField_setField_self (o : Obj) (k : String) (v : JsVal) :
    getField (setField o k v) k = some v := by
  induction o with
  | nil => simp [setField, getField]
  | cons kv rest ih =>
      obtain ⟨k', v'⟩ := kv
      by_cases h : k' = k
      · simp [setField, getField, h]
      · simp [setField, getField, h, ih]

theorem getField_setField_ne (o : Obj) (k k' : String) (v : JsVal)
    (h : k' ≠ k) : getField (setField o k v) k' = getField o k' := by
  induction o with
  | nil => simp [setField, getField, Ne.symm h]
  | cons kv rest ih =>
      obtain ⟨k0, v0⟩ := kv
      by_cases h0 : k0 = k
      · subst h0
        simp [setField, getField, Ne.symm h]
      · by_cases h1 : k0 = k'
        · simp [setField, getField, h0, h1, h]
        · simp [setField, getField, h0, h1, h, ih]

theorem setField_of_getField_none (o : Obj) (k : String) (v : JsVal)
    (h : getField o k = none) : setField o k v = o ++ [(k, v)] := by
  induction o with
  | nil => simp [setField]
  | cons kv rest ih =>
      obtain ⟨k0, v0⟩ := kv
      by_cases h0 : k0 = k
      · simp [getField, h0] at h
      · simp [getField, h0] at h
        simp [setField, h0, ih h]

theorem getField_append_of_none {a : Obj} (b : Obj) {k : String}
    (h : getField a k = none) : getField (a ++ b) k = getField b k := by
  induction a with
  | nil => simp
  | cons kv rest ih =>
      obtain ⟨k0, v0⟩ := kv
      by_cases h0 : k0 = k
      · simp [getField, h0] at h
      · simp [getField, h0] at h ⊢
        exact ih h

theorem getField_append_of_some {a : Obj} (b : Obj) {k : String} {v : JsVal}
    (h : getField a k = some v) : getField (a ++ b) k = some v := by
  induction a with
  | nil => simp [getField] at h
  | cons kv rest ih =>
      obtain ⟨k0, v0⟩ := kv
      by_cases h0 : k0 = k
      · simp [getField, h0] at h ⊢
        exact h
      · simp [getField, h0] at h ⊢
        exact ih h

theorem mergeFields_cons (o : Obj) (k : String) (v : JsVal) (ps : Obj) :
    mergeFields o ((k, v) :: ps) = mergeFields (setField o k v) ps := rfl

theorem mergeFields_disjoint : ∀ (ps o : Obj),
    (∀ p ∈ ps, getField o p.1 = none) → (ps.map Prod.fst).Nodup →
    mergeFields o ps = o ++ ps := by
  intro ps
  induction ps with
  | nil => intro o _ _; simp [mergeFields]
  | cons kv rest ih =>
      intro o hnone hnodup
      obtain ⟨k, v⟩ := kv
      simp only [List.map_cons, List.nodup_cons] at hnodup
      have h1 : getField o k = none := hnone (k, v) (by simp)
      have h2 : ∀ p ∈ rest, getField (o ++ [(k, v)]) p.1 = none := by
        intro p hp
        have hk : p.1 ≠ k := fun hcon => hnodup.1 (List.mem_map.mpr ⟨p, hp, hcon⟩)
        rw [getField_append_of_none _ (hnone p (by simp [hp]))]
        simp [getField, Ne.symm hk]
      calc mergeFields o ((k, v) :: rest)
      _ = mergeFields (o ++ [(k, v)]) rest := by
            rw [mergeFields_cons, setField_of_getField_none o k v h1]
      _ = (o ++ [(k, v)]) ++ rest := ih _ h2 hnodup.2
      _ = o ++ ((k, v) :: rest) := by simp

theorem getField_mergeFields_of_not_key (o ps : Obj) (k : String)
    (h : ∀ p ∈ ps, p.1 ≠ k) : getField (mergeFields o ps) k = getField o k := by
  induction ps generalizing o with
  | nil => rfl
  | cons kv rest ih =>
      obtain ⟨k0, v0⟩ := kv
      rw [mergeFields_cons, ih _ (fun p hp => h p (by simp [hp])),
        getField_setField_ne _ _ _ _ (Ne.symm (h (k0, v0) (by simp)))]

/-! ### Sequencing lemmas for the `Except` validation chains -/

theorem except_seq_ok {α : Type} {a : Except String Unit}
    {k : Unit → Except String α} {v : α}
    (h : (a >>= k) = .ok v) : a = .ok () ∧ k () = .ok v := by
  cases a with
  | error e => simp [Bind.bind, Except.bind] at h
  | ok u => cases u; exact ⟨rfl, by simpa [Bind.bind, Except.bind] using h⟩

theorem except_seq_of_ok {α : Type} {a : Except String Unit}
    (k : Unit → Except String α) (h : a = .ok ()) : (a >>= k) = k () := by
  subst h; rfl

theorem except_seq_of_error {α : Type} {a : Except String Unit}
    (k : Unit → Except String α) {e : String} (h : a = .error e) :
    (a >>= k) = .error e := by
  subst h; rfl

/-! ### Concrete fixtures used by the evaluation theorems -/

/-- A stored shop record (product- and offer-free store `storeOneShop`). -/
def sampleShop : Obj :=
  [("id", .str "s1"), ("name", .str "Alpha Shop"),
   ("description", .str "A very nice shop"), ("category", .str "Electronics"),
   ("floor", .num 1), ("isActive", .bool true), ("createdAt", .num 0),
   ("stats", .obj [("views", .num 0)])]

def storeOneShop : Store := { shops := [sampleShop], products := [], offers := [] }

/-- A stored product referencing `sampleShop` through `shopId`. -/
def sampleProduct : Obj :=
  [("id", .str "p1"), ("name", .str "Gadget"), ("shopId", .str "s1"),
   ("price", .num 10), ("stock", .num 3), ("isActive", .bool true),
   ("createdAt", .num 1)]

def storeShopAndProduct : Store :=
  { shops := [sampleShop], products := [sampleProduct], offers := [] }

/-- A stored offer whose `validTo` (5) lies before the probe time (10). -/
def expiredOffer : Obj :=
  [("id", .str "o1"), ("title", .str "Old Sale"), ("discount", .num 10),
   ("shopId", .str "s1"), ("validFrom", .num 0), ("validTo", .num 5),
   ("isActive", .bool true), ("createdAt", .num 0)]

def storeExpiredOffer : Store :=
  { shops := [], products := [], offers := [expiredOffer] }

/-! ### C1 -/

/-- C1. Soft-delete invariant, evaluated at a one-shop store. After a
successful `deleteShop`, the default `getShops` no longer lists the shop
(as claimed) and the record stays physically present with
`isActive = false` (as claimed) — but `getShops {includeInactive: true}`
returns the empty list instead of the soft-deleted record, because the
`includeInactive` key is spread into the gateway query and is applied
there as the equality filter `item.includeInactive === true`, which no
stored record satisfies. The claim's `getAll({includeInactive:true})`
clause therefore fails on the code. -/
theorem C1_soft_delete_includeInactive_lost :
    (ShopService.deleteShop storeOneShop "s1" "admin" 10).map
        (fun st => ShopService.getShops [] st) = .ok [] ∧
    (ShopService.deleteShop storeOneShop "s1" "admin" 10).map
        (fun st => ShopService.getShops [("includeInactive", some (.bool true))] st) =
      .ok [] ∧
    (ShopService.deleteShop storeOneShop "s1" "admin" 10).map
        (fun st => st.shops.map (fun r => (getField r "id", getField r "isActive"))) =
      .ok [(some (.str "s1"), some (.bool false))] := by
  refine ⟨rfl, rfl, rfl⟩

/-! ### C3 -/

/-- C3. View-count increment, evaluated at a one-shop store whose record
has `stats.views = 0`. `getShopById` succeeds and returns the record, but
the stored record's nested `stats.views` is still `0` afterwards: the
fallback branch of the gateway `update` merges the patch as a flat
top-level spread, so the dotted key `"stats.views"` is persisted as a
literal property name (here with value `1`) instead of updating the
nested counter. The claimed increment of `stats.views` does not happen. -/
theorem C3_dotted_patch_stored_flat :
    (ShopService.getShopById storeOneShop "s1" 7).map (fun p => p.1) =
      .ok sampleShop ∧
    (ShopService.getShopById storeOneShop "s1" 7).map
        (fun p => (FirebaseService.read p.2 .shops "s1").map
          (fun r => (statNum r "views", getField r "stats.views"))) =
      .ok (some (0, some (.num 1))) := by
  refine ⟨rfl, by with_unfolding_all rfl⟩

/-! ### C5 -/

/-- C5. Expiry filter, evaluated at a store holding one expired offer
(`validTo = 5`, probe time `10`). The offer is excluded from the default
`getOffers()` (as claimed), but `getOffers({includeExpired:true})` and
`getExpiredOffers()` both return the empty list instead of including it:
the `includeExpired` key is spread into the gateway query and applied
there as the equality filter `item.includeExpired === true`, which no
stored record satisfies, so the validity-relaxed fetch always yields
nothing. -/
theorem C5_includeExpired_lost :
    OfferService.getOffers [] storeExpiredOffer 10 = [] ∧
    OfferService.getOffers [("includeExpired", some (.bool true))]
        storeExpiredOffer 10 = [] ∧
    OfferService.getExpiredOffers storeExpiredOffer 10 = [] ∧
    storeExpiredOffer.offers = [expiredOffer] ∧
    dateVal (getField expiredOffer "validTo") = some 5 := by
  refine ⟨rfl, rfl, rfl, rfl, rfl⟩

/-! ### C2 -/

/-- C2. Counterexample to the claim's final clause: with shop `s1` and
product `p1` referencing it, soft-deleting the product first and then
calling `deleteShop("s1")` still fails — `deleteProduct` only flips
`isActive`, so the product row is still present in the collection and the
referential guard still fires. -/
theorem C2_counterexample_delete_product_first :
    (ProductService.deleteProduct storeShopAndProduct "p1" "admin" 5).map
        (fun st => ShopService.deleteShop st "s1" "admin" 10) =
      .ok (.error
        "Cannot delete shop with existing products. Please remove all products first.") := by
  rfl

theorem updateById_field_preserved
    {items items' : List Obj} {id : String} {patch : Obj} {now : ℚ}
    {k : String} {w : JsVal}
    (hpatch : ∀ p ∈ patch, p.1 ≠ k) (hupd : k ≠ "updatedAt")
    (h : FirebaseService.updateById items id patch now = some items') :
    ∀ p ∈ items, getField p k = some w → ∃ q ∈ items', getField q k = some w := by
  induction items generalizing items' with
  | nil => simp [FirebaseService.updateById] at h
  | cons item rest ih =>
      rw [FirebaseService.updateById] at h
      by_cases hid : idMatches item id
      · rw [if_pos hid] at h
        injection h with h2
        subst h2
        intro p hp hw
        rcases List.mem_cons.mp hp with rfl | hmem
        · refine ⟨setField (mergeFields p patch) "updatedAt" (.num now), by simp, ?_⟩
          rw [getField_setField_ne _ _ _ _ hupd,
            getField_mergeFields_of_not_key _ _ _ hpatch, hw]
        · exact ⟨p, by simp [hmem], hw⟩
      · rw [if_neg hid] at h
        rcases hrec : FirebaseService.updateById rest id patch now with _ | rest'
        · rw [hrec] at h; simp at h
        · rw [hrec, Option.map_some'] at h
          injection h with h2
          subst h2
          intro p hp hw
          rcases List.mem_cons.mp hp with rfl | hmem
          · exact ⟨p, by simp, hw⟩
          · obtain ⟨q, hq, hqw⟩ := ih hrec p hmem hw
            exact ⟨q, by simp [hq], hqw⟩

theorem query_shopId_nonempty (st : Store) (sid : String) {p : Obj}
    (hp : p ∈ st.products) (hf : getField p "shopId" = some (.str sid)) :
    FirebaseService.query st .products [("shopId", some (.str sid))] ≠ [] := by
  by_cases hsid : sid = ""
  · subst hsid
    simpa [FirebaseService.query, FirebaseService.readAll, Store.get] using
      List.ne_nil_of_mem hp
  · have hpass : FirebaseService.passesFilter p "shopId" (.str sid) = true := by
      simp [FirebaseService.passesFilter, hf, jsEq]
    have hskip : ¬(JsVal.str sid = .null ∨ JsVal.str sid = .str "") := by
      simp [hsid]
    simp only [FirebaseService.query, FirebaseService.readAll, Store.get,
      List.foldl_cons, List.foldl_nil, if_neg hskip]
    exact List.ne_nil_of_mem (List.mem_filter.mpr ⟨hp, hpass⟩)

theorem deleteShop_conflict (st : Store) (sid uid : String) (t : ℚ)
    (h : ∃ p ∈ st.products, getField p "shopId" = some (.str sid)) :
    ShopService.deleteShop st sid uid t =
      .error "Cannot delete shop with existing products. Please remove all products first." := by
  obtain ⟨p, hp, hf⟩ := h
  have hne := query_shopId_nonempty st sid hp hf
  have hlen : 0 < (FirebaseService.query st .products
      [("shopId", some (.str sid))]).length := List.length_pos.mpr hne
  simp [ShopService.deleteShop, hlen]

/-- C2 (amended). While any product row carries `shopId = S.id` — active
or soft-deleted alike — `deleteShop(S.id)` fails with the conflict error
and performs no update; and because `deleteProduct` is itself only a soft
delete, deleting such a product first and then calling `deleteShop(S.id)`
still fails with the same conflict error. A shop with a referencing
product row can never be deleted through the service API. -/
theorem C2_referential_guard_persists (st : Store) (sid pid uid : String)
    (t1 t2 : ℚ)
    (href : ∃ p ∈ st.products, getField p "shopId" = some (.str sid)) :
    ShopService.deleteShop st sid uid t2 =
      .error "Cannot delete shop with existing products. Please remove all products first." ∧
    ∀ st1, ProductService.deleteProduct st pid uid t1 = .ok st1 →
      ShopService.deleteShop st1 sid uid t2 =
        .error "Cannot delete shop with existing products. Please remove all products first." := by
  refine ⟨deleteShop_conflict st sid uid t2 href, ?_⟩
  intro st1 hdel
  obtain ⟨p, hp, hf⟩ := href
  unfold ProductService.deleteProduct FirebaseService.update at hdel
  rcases hupd : FirebaseService.updateById (Store.get st .products) pid
      [("isActive", .bool false), ("deletedAt", .num t1), ("deletedBy", .str uid)] t1 with
    _ | items'
  · rw [hupd] at hdel; simp at hdel
  · rw [hupd] at hdel
    simp only [Except.ok.injEq] at hdel
    obtain ⟨q, hq, hqf⟩ :=
      updateById_field_preserved (k := "shopId") (w := .str sid)
        (by intro x hx; simp only [List.mem_cons, List.not_mem_nil, or_false] at hx
            rcases hx with rfl | rfl | rfl <;> simp)
        (by simp) hupd p hp hf
    refine deleteShop_conflict st1 sid uid t2 ⟨q, ?_, hqf⟩
    rw [← hdel]
    simpa [Store.put] using hq

/-- The store produced by soft-deleting `sampleProduct` at time 5. -/
def storeAfterProductDelete : Store :=
  { shops := [sampleShop],
    products :=
      [[("id", .str "p1"), ("name", .str "Gadget"), ("shopId", .str "s1"),
        ("price", .num 10), ("stock", .num 3), ("isActive", .bool false),
        ("createdAt", .num 1), ("deletedAt", .num 5),
        ("deletedBy", .str "admin"), ("updatedAt", .num 5)]],
    offers := [] }

theorem C2_referential_guard_persists_witness :
    ShopService.deleteShop storeShopAndProduct "s1" "admin" 10 =
      .error "Cannot delete shop with existing products. Please remove all products first." ∧
    ShopService.deleteShop storeAfterProductDelete "s1" "admin" 10 =
      .error "Cannot delete shop with existing products. Please remove all products first." := by
  have h := C2_referential_guard_persists storeShopAndProduct "s1" "p1" "admin" 5 10
    ⟨sampleProduct, by simp [storeShopAndProduct], rfl⟩
  exact ⟨h.1, h.2 storeAfterProductDelete rfl⟩

/-! ### C4 -/

/-- The fields a service-level create (or the gateway) stamps itself. -/
def reservedCreateFields : List String :=
  ["id", "createdAt", "isActive", "createdBy", "stats"]

/-- C4. Round-trip: a valid creation payload free of reserved fields comes
back from `getProductById` exactly as sent, extended (in order) with the
service defaults `isActive = true`, creator attribution, zeroed stats, the
assigned identifier and the creation timestamp — no payload field is
dropped. The identifier freshness hypothesis reflects the gateway's
collision-free id generation. -/
theorem C4_create_then_getById_roundtrip (st : Store) (productData : Obj)
    (uid newId : String) (t1 t2 : ℚ)
    (hval : ProductService.validateProductData productData false = .ok ())
    (hres : ∀ f ∈ reservedCreateFields, getField productData f = none)
    (hfresh : ∀ p ∈ st.products, idMatches p newId = false) :
    ∃ st1, ProductService.createProduct st productData uid newId t1 = .ok (newId, st1) ∧
      (ProductService.getProductById st1 newId t2).map Prod.fst =
        .ok (productData ++
          [("isActive", .bool true), ("createdBy", .str uid),
           ("stats", ProductService.productZeroStats),
           ("id", .str newId), ("createdAt", .num t1)]) := by
  have hresF : ∀ f ∈ reservedCreateFields, getField productData f = none := hres
  have hid : getField productData "id" = none := hresF "id" (by simp [reservedCreateFields])
  have hcr : getField productData "createdAt" = none :=
    hresF "createdAt" (by simp [reservedCreateFields])
  have hia : getField productData "isActive" = none :=
    hresF "isActive" (by simp [reservedCreateFields])
  have hcb : getField productData "createdBy" = none :=
    hresF "createdBy" (by simp [reservedCreateFields])
  have hst : getField productData "stats" = none :=
    hresF "stats" (by simp [reservedCreateFields])
  set extras : Obj :=
    [("isActive", .bool true), ("createdBy", .str uid),
     ("stats", ProductService.productZeroStats)] with hextras
  have hmerge : mergeFields productData extras = productData ++ extras := by
    refine mergeFields_disjoint extras productData ?_ (by simp [hextras])
    intro p hp
    rw [hextras] at hp
    simp only [List.mem_cons, List.not_mem_nil, or_false] at hp
    rcases hp with rfl | rfl | rfl
    · exact hia
    · exact hcb
    · exact hst
  have hidE : getField (productData ++ extras) "id" = none := by
    rw [getField_append_of_none _ hid]; rfl
  have hcrE : getField ((productData ++ extras) ++ [("id", JsVal.str newId)]) "createdAt" = none := by
    rw [getField_append_of_none _ (by rw [getField_append_of_none _ hcr]; rfl)]
    rfl
  have hitem : FirebaseService.createdItem (mergeFields productData extras) newId t1 =
      productData ++
        [("isActive", .bool true), ("createdBy", .str uid),
         ("stats", ProductService.productZeroStats),
         ("id", .str newId), ("createdAt", .num t1)] := by
    rw [FirebaseService.createdItem, hmerge, setField_of_getField_none _ _ _ hidE,
      setField_of_getField_none _ _ _ hcrE]
    simp [hextras]
  set newItem : Obj := productData ++
    [("isActive", .bool true), ("createdBy", .str uid),
     ("stats", ProductService.productZeroStats),
     ("id", .str newId), ("createdAt", .num t1)] with hnewItem
  have hitemId : getField newItem "id" = some (.str newId) := by
    rw [hnewItem, getField_append_of_none _ hid]
    rfl
  have hcreate : ProductService.createProduct st productData uid newId t1 =
      .ok (newId, st.put .products (st.get .products ++ [newItem])) := by
    rw [ProductService.createProduct, except_seq_of_ok _ hval]
    rw [FirebaseService.create, hitem]
  refine ⟨st.put .products (st.get .products ++ [newItem]), hcreate, ?_⟩
  have hread : FirebaseService.read (st.put .products (st.get .products ++ [newItem]))
      .products newId = some newItem := by
    rw [FirebaseService.read]
    have hg : (st.put .products (st.get .products ++ [newItem])).get .products =
        st.get .products ++ [newItem] := by
      cases st; rfl
    rw [hg, List.find?_append]
    have hnone : (st.get .products).find? (fun item => idMatches item newId) = none :=
      List.find?_eq_none.mpr (fun p hp => by simp [hfresh p hp])
    rw [hnone]
    simp [List.find?, idMatches, hitemId]
  rw [ProductService.getProductById, hread]
  rfl

/-- A concrete valid payload for the round-trip witness. -/
def roundtripPayload : Obj :=
  [("name", .str "Gadget Pro"), ("description", .str "A very nice gadget"),
   ("price", .num 10), ("category", .str "Electronics"),
   ("shopId", .str "s1"), ("stock", .num 5)]

theorem C4_create_then_getById_roundtrip_witness :
    ∃ st1, ProductService.createProduct storeOneShop roundtripPayload "u" "n1" 1 =
        .ok ("n1", st1) ∧
      (ProductService.getProductById st1 "n1" 2).map Prod.fst =
        .ok (roundtripPayload ++
          [("isActive", .bool true), ("createdBy", .str "u"),
           ("stats", ProductService.productZeroStats),
           ("id", .str "n1"), ("createdAt", .num 1)]) :=
  C4_create_then_getById_roundtrip storeOneShop roundtripPayload "u" "n1" 1 2
    (by with_unfolding_all rfl) (by decide) (by decide)

/-! ### C6 machinery: a specification-side view of the feature table -/

namespace ProductService

/-- Lookup of a key in the feature table (first match, like a JS object). -/
def featLookup (fs : List (String × List FeatureEntry)) (k : String) :
    Option (List FeatureEntry) :=
  match fs with
  | [] => none
  | (k2, l) :: rest => if k2 = k then some l else featLookup rest k

/-- Whether a product's specifications carry key `k`. -/
def hasSpecKey (p : Obj) (k : String) : Bool :=
  (specPairs p).any (fun kv => kv.1 = k)

/-- The products among `ps` whose specifications carry key `k`, in order. -/
def featureCarriers (ps : List Obj) (k : String) : List Obj :=
  ps.filter (fun p => hasSpecKey p k)

/-- The value a carrier's specifications hold at key `k`. -/
def specValD (p : Obj) (k : String) : JsVal :=
  match getField (specPairs p) k with
  | some v => v
  | none => .null

/-- The feature entries one product contributes for key `k`. -/
def specEntries (p : Obj) (k : String) : List FeatureEntry :=
  ((specPairs p).filter (fun kv => kv.1 = k)).map (fun kv => mkEntry p kv.2)

/-- The feature entries a product list contributes for key `k`, in order. -/
def entriesOf (ps : List Obj) (k : String) : List FeatureEntry :=
  (ps.map (fun p => specEntries p k)).flatten

/-- Appending entries to an optional bucket: the bucket exists afterwards
iff it existed before or something was appended. -/
def optAppend (o : Option (List FeatureEntry)) (n : List FeatureEntry) :
    Option (List FeatureEntry) :=
  match o, n with
  | none, [] => none
  | o, n => some (o.getD [] ++ n)

theorem optAppend_nil (o : Option (List FeatureEntry)) : optAppend o [] = o := by
  cases o <;> simp [optAppend]

theorem optAppend_some (l n : List FeatureEntry) :
    optAppend (some l) n = some (l ++ n) := by
  cases n <;> simp [optAppend]

theorem optAppend_cons (o : Option (List FeatureEntry)) (x : FeatureEntry)
    (n : List FeatureEntry) : optAppend o (x :: n) = some (o.getD [] ++ x :: n) := by
  cases o <;> simp [optAppend]

theorem optAppend_assoc (o : Option (List FeatureEntry)) (a b : List FeatureEntry) :
    optAppend (optAppend o a) b = optAppend o (a ++ b) := by
  cases o with
  | none =>
      cases a with
      | nil => simp [optAppend_nil]
      | cons x xs =>
          rw [optAppend_cons, optAppend_some, List.cons_append, optAppend_cons]
          simp
  | some l =>
      rw [optAppend_some, optAppend_some, optAppend_some, List.append_assoc]

theorem featLookup_pushFeature (fs : List (String × List FeatureEntry))
    (k : String) (e : FeatureEntry) (k2 : String) :
    featLookup (pushFeature fs k e) k2 =
      if k2 = k then some ((featLookup fs k).getD [] ++ [e])
      else featLookup fs k2 := by
  induction fs with
  | nil =>
      by_cases h : k2 = k
      · subst h; simp [pushFeature, featLookup]
      · simp [pushFeature, featLookup, h, Ne.symm h]
  | cons kv rest ih =>
      obtain ⟨k0, l⟩ := kv
      by_cases h0 : k0 = k
      · subst h0
        by_cases h2 : k2 = k0
        · subst h2
          simp [pushFeature, featLookup]
        · simp [pushFeature, featLookup, h2, Ne.symm h2]
      · by_cases h2 : k0 = k2
        · subst h2
          simp [pushFeature, featLookup, h0, Ne.symm h0]
        · simp [pushFeature, featLookup, h0, h2, ih]

theorem featLookup_pushProductFeatures (p : Obj) (acc : List (String × List FeatureEntry))
    (k : String) :
    featLookup (pushProductFeatures acc p) k =
      optAppend (featLookup acc k) (specEntries p k) := by
  rw [pushProductFeatures, specEntries]
  generalize specPairs p = sp
  induction sp generalizing acc with
  | nil => simp [optAppend_nil]
  | cons kv sp ih =>
      obtain ⟨k1, v1⟩ := kv
      rw [List.foldl_cons, ih]
      by_cases h : k1 = k
      · subst h
        simp [featLookup_pushFeature, List.filter_cons, optAppend_some, optAppend_cons]
      · have hkk1 : ¬ k = k1 := fun hc => h hc.symm
        simp [featLookup_pushFeature, List.filter_cons, h, hkk1]

theorem featLookup_collectAux (ps : List Obj) (acc : List (String × List FeatureEntry))
    (k : String) :
    featLookup (ps.foldl pushProductFeatures acc) k =
      optAppend (featLookup acc k) (entriesOf ps k) := by
  induction ps generalizing acc with
  | nil => simp [entriesOf, optAppend_nil]
  | cons p ps ih =>
      rw [List.foldl_cons, ih, featLookup_pushProductFeatures, optAppend_assoc]
      rfl

theorem featLookup_collectFeatures (ps : List Obj) (k : String) :
    featLookup (collectFeatures ps) k = optAppend none (entriesOf ps k) := by
  rw [collectFeatures, featLookup_collectAux]
  rfl

theorem keys_pushFeature (fs : List (String × List FeatureEntry)) (k : String)
    (e : FeatureEntry) :
    (pushFeature fs k e).map Prod.fst =
      if k ∈ fs.map Prod.fst then fs.map Prod.fst else fs.map Prod.fst ++ [k] := by
  induction fs with
  | nil => simp [pushFeature]
  | cons kv rest ih =>
      obtain ⟨k0, l⟩ := kv
      by_cases h0 : k0 = k
      · subst h0
        simp [pushFeature]
      · by_cases hmem : k ∈ rest.map Prod.fst
        · simp [pushFeature, h0, ih, hmem, Ne.symm h0]
        · simp [pushFeature, h0, ih, hmem, Ne.symm h0]

theorem keys_nodup_pushFeature (fs : List (String × List FeatureEntry)) (k : String)
    (e : FeatureEntry) (h : (fs.map Prod.fst).Nodup) :
    ((pushFeature fs k e).map Prod.fst).Nodup := by
  rw [keys_pushFeature]
  by_cases hmem : k ∈ fs.map Prod.fst
  · rwa [if_pos hmem]
  · rw [if_neg hmem, List.nodup_append]
    refine ⟨h, List.nodup_singleton k, ?_⟩
    intro a ha
    simp only [List.mem_singleton]
    intro hc
    subst hc
    exact hmem ha

theorem keys_nodup_pushProductFeatures (p : Obj)
    (acc : List (String × List FeatureEntry)) (h : (acc.map Prod.fst).Nodup) :
    ((pushProductFeatures acc p).map Prod.fst).Nodup := by
  rw [pushProductFeatures]
  generalize specPairs p = sp
  induction sp generalizing acc with
  | nil => exact h
  | cons kv sp ih => exact ih _ (keys_nodup_pushFeature _ _ _ h)

theorem keys_nodup_collectFeatures (ps : List Obj) :
    ((collectFeatures ps).map Prod.fst).Nodup := by
  rw [collectFeatures]
  have : ∀ acc : List (String × List FeatureEntry), (acc.map Prod.fst).Nodup →
      ((ps.foldl pushProductFeatures acc).map Prod.fst).Nodup := by
    induction ps with
    | nil => exact fun acc h => h
    | cons p ps ih =>
        exact fun acc h => ih _ (keys_nodup_pushProductFeatures p acc h)
  exact this [] (by simp)

theorem featLookup_eq_none_of_not_mem (fs : List (String × List FeatureEntry))
    (k : String) (h : k ∉ fs.map Prod.fst) : featLookup fs k = none := by
  induction fs with
  | nil => rfl
  | cons kv rest ih =>
      obtain ⟨k0, l⟩ := kv
      simp only [List.map_cons, List.mem_cons] at h
      push_neg at h
      rw [featLookup, if_neg (Ne.symm h.1), ih h.2]

theorem featLookup_filter_length (fs : List (String × List FeatureEntry))
    (k : String) (hnd : (fs.map Prod.fst).Nodup) :
    featLookup (fs.filter (fun kv => 2 ≤ kv.2.length)) k =
      (featLookup fs k).bind (fun l => if 2 ≤ l.length then some l else none) := by
  induction fs with
  | nil => rfl
  | cons kv rest ih =>
      obtain ⟨k0, l⟩ := kv
      simp only [List.map_cons, List.nodup_cons] at hnd
      by_cases h0 : k0 = k
      · subst h0
        by_cases hl : 2 ≤ l.length
        · rw [List.filter_cons, if_pos (by simpa using hl), featLookup, if_pos rfl,
            featLookup, if_pos rfl, Option.some_bind, if_pos hl]
        · rw [List.filter_cons, if_neg (by simpa using hl),
            featLookup_eq_none_of_not_mem _ _
              (fun hm => hnd.1 (by
                obtain ⟨kv, hkv, hk⟩ := List.mem_map.mp hm
                exact List.mem_map.mpr ⟨kv, List.mem_of_mem_filter hkv, hk⟩)),
            featLookup, if_pos rfl, Option.some_bind, if_neg hl]
      · by_cases hl : 2 ≤ l.length
        · rw [List.filter_cons, if_pos (by simpa using hl), featLookup, if_neg h0,
            featLookup, if_neg h0, ih hnd.2]
        · rw [List.filter_cons, if_neg (by simpa using hl), featLookup, if_neg h0,
            ih hnd.2]

theorem getField_eq_none_of_not_mem (o : Obj) (k : String)
    (h : k ∉ o.map Prod.fst) : getField o k = none := by
  induction o with
  | nil => rfl
  | cons kv rest ih =>
      obtain ⟨k0, v0⟩ := kv
      simp only [List.map_cons, List.mem_cons] at h
      push_neg at h
      rw [getField, if_neg (Ne.symm h.1), ih h.2]

theorem filterKey_of_getField_none (o : Obj) (k : String)
    (h : getField o k = none) : o.filter (fun kv => kv.1 = k) = [] := by
  induction o with
  | nil => rfl
  | cons kv rest ih =>
      obtain ⟨k0, v0⟩ := kv
      by_cases h0 : k0 = k
      · rw [getField, if_pos h0] at h
        cases h
      · rw [getField, if_neg h0] at h
        rw [List.filter_cons, if_neg (by simpa using h0), ih h]

theorem filterKey_of_getField_some (o : Obj) (k : String) (v : JsVal)
    (hnd : (o.map Prod.fst).Nodup) (h : getField o k = some v) :
    o.filter (fun kv => kv.1 = k) = [(k, v)] := by
  induction o with
  | nil => cases h
  | cons kv rest ih =>
      obtain ⟨k0, v0⟩ := kv
      simp only [List.map_cons, List.nodup_cons] at hnd
      by_cases h0 : k0 = k
      · subst h0
        rw [getField, if_pos rfl] at h
        injection h with hv
        subst hv
        rw [List.filter_cons, if_pos (by simp)]
        rw [filterKey_of_getField_none rest k0
          (getField_eq_none_of_not_mem rest k0 hnd.1)]
      · rw [getField, if_neg h0] at h
        rw [List.filter_cons, if_neg (by simpa using h0), ih hnd.2 h]

theorem hasSpecKey_eq_isSome (p : Obj) (k : String) :
    hasSpecKey p k = (getField (specPairs p) k).isSome := by
  rw [hasSpecKey]
  generalize specPairs p = sp
  induction sp with
  | nil => rfl
  | cons kv rest ih =>
      obtain ⟨k0, v0⟩ := kv
      by_cases h0 : k0 = k
      · simp [getField, h0]
      · simp [getField, h0, ih]

/-- With duplicate-free specification keys (as every JS object has), one
product contributes exactly one entry per carried key. -/
theorem specEntries_eq (p : Obj) (k : String)
    (hnd : ((specPairs p).map Prod.fst).Nodup) :
    specEntries p k =
      if hasSpecKey p k then [mkEntry p (specValD p k)] else [] := by
  rw [specEntries, hasSpecKey_eq_isSome, specValD]
  rcases h : getField (specPairs p) k with _ | v
  · rw [filterKey_of_getField_none _ _ h]
    rfl
  · rw [filterKey_of_getField_some _ _ _ hnd h]
    rfl

theorem entriesOf_eq_carriers (ps : List Obj) (k : String)
    (h : ∀ p ∈ ps, ((specPairs p).map Prod.fst).Nodup) :
    entriesOf ps k =
      (featureCarriers ps k).map (fun p => mkEntry p (specValD p k)) := by
  induction ps with
  | nil => rfl
  | cons p ps ih =>
      have hent : entriesOf (p :: ps) k = specEntries p k ++ entriesOf ps k := rfl
      rw [hent, specEntries_eq p k (h p (by simp)), featureCarriers, List.filter_cons]
      by_cases hc : hasSpecKey p k
      · rw [if_pos hc, if_pos (by simpa using hc), List.map_cons,
          ih (fun q hq => h q (by simp [hq]))]
        rfl
      · rw [if_neg hc, if_neg (by simpa using hc),
          ih (fun q hq => h q (by simp [hq]))]
        rfl

theorem mem_jsDedupAux {α : Type} [DecidableEq α] (seen : List α) (l : List α)
    (x : α) : x ∈ jsDedupAux seen l ↔ x ∈ l ∧ x ∉ seen := by
  induction l generalizing seen with
  | nil => simp [jsDedupAux]
  | cons y ys ih =>
      by_cases hy : y ∈ seen
      · rw [jsDedupAux, if_pos hy, ih]
        constructor
        · exact fun ⟨h1, h2⟩ => ⟨by simp [h1], h2⟩
        · rintro ⟨h1, h2⟩
          rcases List.mem_cons.mp h1 with rfl | h1
          · exact absurd hy h2
          · exact ⟨h1, h2⟩
      · rw [jsDedupAux, if_neg hy]
        constructor
        · intro hx
          rcases List.mem_cons.mp hx with rfl | hx
          · exact ⟨by simp, hy⟩
          · obtain ⟨h1, h2⟩ := (ih _).mp hx
            simp only [List.mem_cons] at h2
            push_neg at h2
            exact ⟨by simp [h1], h2.2⟩
        · rintro ⟨h1, h2⟩
          rcases List.mem_cons.mp h1 with rfl | h1
          · simp
          · by_cases hxy : x = y
            · simp [hxy]
            · exact List.mem_cons_of_mem _ ((ih _).mpr ⟨h1, by simp [hxy, h2]⟩)

theorem nodup_jsDedupAux {α : Type} [DecidableEq α] (seen : List α) (l : List α) :
    (jsDedupAux seen l).Nodup := by
  induction l generalizing seen with
  | nil => simp [jsDedupAux]
  | cons y ys ih =>
      by_cases hy : y ∈ seen
      · rw [jsDedupAux, if_pos hy]
        exact ih seen
      · rw [jsDedupAux, if_neg hy]
        refine List.Nodup.cons ?_ (ih (y :: seen))
        intro hmem
        exact ((mem_jsDedupAux _ _ _).mp hmem).2 (by simp)

theorem nodup_jsDedup {α : Type} [DecidableEq α] (l : List α) :
    (jsDedup l).Nodup := nodup_jsDedupAux [] l

theorem mem_jsDedup {α : Type} [DecidableEq α] (l : List α) (x : α) :
    x ∈ jsDedup l ↔ x ∈ l := by
  rw [jsDedup, mem_jsDedupAux]
  simp

theorem foldl_min_le_init (l : List ℚ) (a : ℚ) : l.foldl min a ≤ a := by
  induction l generalizing a with
  | nil => exact le_refl a
  | cons x xs ih =>
      rw [List.foldl_cons]
      exact le_trans (ih (min a x)) (min_le_left a x)

theorem foldl_min_le_mem (l : List ℚ) (a x : ℚ) : x ∈ l → l.foldl min a ≤ x := by
  induction l generalizing a with
  | nil => intro hx; cases hx
  | cons y ys ih =>
      intro hx
      rw [List.foldl_cons]
      rcases List.mem_cons.mp hx with rfl | hx
      · exact le_trans (foldl_min_le_init ys (min a x)) (min_le_right a x)
      · exact ih (min a y) hx

theorem foldl_min_mem (l : List ℚ) (a : ℚ) :
    l.foldl min a = a ∨ l.foldl min a ∈ l := by
  induction l generalizing a with
  | nil => exact Or.inl rfl
  | cons x xs ih =>
      rw [List.foldl_cons]
      rcases ih (min a x) with h | h
      · rcases min_choice a x with hm | hm
        · exact Or.inl (h.trans hm)
        · exact Or.inr (by rw [h, hm]; simp)
      · exact Or.inr (by simp [h])

theorem listMin_le_mem (l : List ℚ) (x : ℚ) (hx : x ∈ l) : listMin l ≤ x := by
  cases l with
  | nil => cases hx
  | cons y ys =>
      rw [listMin]
      rcases List.mem_cons.mp hx with rfl | hx
      · exact foldl_min_le_init ys x
      · exact foldl_min_le_mem ys y x hx

theorem listMin_mem (l : List ℚ) (h : l ≠ []) : listMin l ∈ l := by
  cases l with
  | nil => exact absurd rfl h
  | cons y ys =>
      rw [listMin]
      rcases foldl_min_mem ys y with h1 | h1
      · rw [h1]; simp
      · simp [h1]

theorem foldl_max_le_init (l : List ℚ) (a : ℚ) : a ≤ l.foldl max a := by
  induction l generalizing a with
  | nil => exact le_refl a
  | cons x xs ih =>
      rw [List.foldl_cons]
      exact le_trans (le_max_left a x) (ih (max a x))

theorem foldl_max_le_mem (l : List ℚ) (a x : ℚ) : x ∈ l → x ≤ l.foldl max a := by
  induction l generalizing a with
  | nil => intro hx; cases hx
  | cons y ys ih =>
      intro hx
      rw [List.foldl_cons]
      rcases List.mem_cons.mp hx with rfl | hx
      · exact le_trans (le_max_right a x) (foldl_max_le_init ys (max a x))
      · exact ih (max a y) hx

theorem foldl_max_mem (l : List ℚ) (a : ℚ) :
    l.foldl max a = a ∨ l.foldl max a ∈ l := by
  induction l generalizing a with
  | nil => exact Or.inl rfl
  | cons x xs ih =>
      rw [List.foldl_cons]
      rcases ih (max a x) with h | h
      · rcases max_choice a x with hm | hm
        · exact Or.inl (h.trans hm)
        · exact Or.inr (by rw [h, hm]; simp)
      · exact Or.inr (by simp [h])

theorem listMax_le_mem (l : List ℚ) (x : ℚ) (hx : x ∈ l) : x ≤ listMax l := by
  cases l with
  | nil => cases hx
  | cons y ys =>
      rw [listMax]
      rcases List.mem_cons.mp hx with rfl | hx
      · exact foldl_max_le_init ys x
      · exact foldl_max_le_mem ys y x hx

theorem listMax_mem (l : List ℚ) (h : l ≠ []) : listMax l ∈ l := by
  cases l with
  | nil => exact absurd rfl h
  | cons y ys =>
      rw [listMax]
      rcases foldl_max_mem ys y with h1 | h1
      · rw [h1]; simp
      · simp [h1]

end ProductService

/-! ### Congruence lemmas for the validators -/

theorem checkRequiredTruthy_congr (d1 d2 : Obj) (fields : List String)
    (h : ∀ f ∈ fields, truthyOpt (getField d1 f) = truthyOpt (getField d2 f)) :
    checkRequiredTruthy d1 fields = checkRequiredTruthy d2 fields := by
  induction fields with
  | nil => rfl
  | cons f fs ih =>
      rw [checkRequiredTruthy, checkRequiredTruthy, h f (by simp)]
      by_cases hf : truthyOpt (getField d2 f) = true
      · rw [if_pos hf, if_pos hf, ih (fun g hg => h g (by simp [hg]))]
      · rw [if_neg hf, if_neg hf]

/-- Presence in the sense of the product validator's required check. -/
def isPresent : Option JsVal → Bool
  | none => false
  | some .null => false
  | some _ => true

theorem checkRequiredPresent_cons (d : Obj) (f : String) (fs : List String) :
    checkRequiredPresent d (f :: fs) =
      if isPresent (getField d f) then checkRequiredPresent d fs
      else .error (f ++ " is required") := by
  rcases hg : getField d f with _ | v
  · simp [checkRequiredPresent, hg, isPresent]
  · cases v <;> simp [checkRequiredPresent, hg, isPresent]

theorem checkRequiredPresent_congr (d1 d2 : Obj) (fields : List String)
    (h : ∀ f ∈ fields, isPresent (getField d1 f) = isPresent (getField d2 f)) :
    checkRequiredPresent d1 fields = checkRequiredPresent d2 fields := by
  induction fields with
  | nil => rfl
  | cons f fs ih =>
      rw [checkRequiredPresent_cons, checkRequiredPresent_cons, h f (by simp)]
      by_cases hf : isPresent (getField d2 f) = true
      · rw [if_pos hf, if_pos hf, ih (fun g hg => h g (by simp [hg]))]
      · rw [if_neg hf, if_neg hf]

theorem strMinCheck_congr (d1 d2 : Obj) (field : String) (n : Nat) (msg : String)
    (h : getField d1 field = getField d2 field) :
    strMinCheck d1 field n msg = strMinCheck d2 field n msg := by
  rw [strMinCheck, strMinCheck, h]

/-! ### C7 -/

/-- C7. Discount validation boundary: for an offer payload that passes the
whole validator with `discount = 100`, `createOffer` succeeds; replacing
the discount by `101` or by `-1` makes `createOffer` fail with the
validation message naming the discount range. -/
theorem C7_discount_boundary (st : Store) (d : Obj) (uid newId : String) (now : ℚ)
    (hval : OfferService.validateOfferData d false now = .ok ())
    (hd : getField d "discount" = some (.num 100)) :
    (∃ st1, OfferService.createOffer st d uid newId now = .ok (newId, st1)) ∧
    OfferService.createOffer st (setField d "discount" (.num 101)) uid newId now =
      .error "Discount must be between 0 and 100 percent" ∧
    OfferService.createOffer st (setField d "discount" (.num (-1))) uid newId now =
      .error "Discount must be between 0 and 100 percent" := by
  constructor
  · refine ⟨(FirebaseService.create st .offers
      (mergeFields d [("isActive", .bool true), ("createdBy", .str uid),
        ("stats", OfferService.offerZeroStats)]) newId now).2, ?_⟩
    rw [OfferService.createOffer, except_seq_of_ok _ hval]
    rfl
  have key : ∀ q : ℚ, q < 0 ∨ 100 < q → q ≠ 0 →
      OfferService.validateOfferData (setField d "discount" (.num q)) false now =
        .error "Discount must be between 0 and 100 percent" := by
    intro q hq hq0
    rw [OfferService.validateOfferData] at hval ⊢
    obtain ⟨h1, hval⟩ := except_seq_ok hval
    obtain ⟨h2, hval⟩ := except_seq_ok hval
    obtain ⟨h3, _⟩ := except_seq_ok hval
    have e1 : checkRequiredTruthy (setField d "discount" (.num q))
        (if false = true then []
         else ["title", "description", "discount", "shopId", "validFrom", "validTo"]) =
        .ok () := by
      rw [← h1]
      refine checkRequiredTruthy_congr _ _ _ ?_
      intro f _
      by_cases hfd : f = "discount"
      · subst hfd
        rw [getField_setField_self, hd]
        simp only [truthyOpt, truthy]
        rw [decide_eq_decide]
        exact iff_of_true hq0 (by norm_num)
      · rw [getField_setField_ne _ _ _ _ hfd]
    have e2 : strMinCheck (setField d "discount" (.num q)) "title" 3
        "Offer title must be at least 3 characters long" = .ok () := by
      rw [strMinCheck_congr _ d _ _ _ (getField_setField_ne _ _ _ _ (by simp))]
      exact h2
    have e3 : strMinCheck (setField d "discount" (.num q)) "description" 10
        "Offer description must be at least 10 characters long" = .ok () := by
      rw [strMinCheck_congr _ d _ _ _ (getField_setField_ne _ _ _ _ (by simp))]
      exact h3
    rw [except_seq_of_ok _ e1, except_seq_of_ok _ e2, except_seq_of_ok _ e3]
    refine except_seq_of_error _ ?_
    rw [getField_setField_self]
    show (if q < 0 ∨ 100 < q then Except.error "Discount must be between 0 and 100 percent"
      else Except.ok ()) = Except.error "Discount must be between 0 and 100 percent"
    rw [if_pos hq]
  refine ⟨?_, ?_⟩
  · rw [OfferService.createOffer,
      except_seq_of_error _ (key 101 (by norm_num) (by norm_num))]
  · rw [OfferService.createOffer,
      except_seq_of_error _ (key (-1) (by norm_num) (by norm_num))]

/-- A concrete payload, valid with discount 100, for the C7 witness. -/
def offerPayload100 : Obj :=
  [("title", .str "Big Sale"), ("description", .str "Huge discounts now"),
   ("discount", .num 100), ("shopId", .str "s1"),
   ("validFrom", .num 1), ("validTo", .num 100)]

theorem C7_discount_boundary_witness :
    (∃ st1, OfferService.createOffer storeOneShop offerPayload100 "u" "o9" 5 =
        .ok ("o9", st1)) ∧
    OfferService.createOffer storeOneShop (setField offerPayload100 "discount" (.num 101))
        "u" "o9" 5 = .error "Discount must be between 0 and 100 percent" ∧
    OfferService.createOffer storeOneShop (setField offerPayload100 "discount" (.num (-1)))
        "u" "o9" 5 = .error "Discount must be between 0 and 100 percent" :=
  C7_discount_boundary storeOneShop offerPayload100 "u" "o9" 5
    (by with_unfolding_all rfl) (by rfl)

/-! ### C9 -/

/-- C9. Falsy-required-field asymmetry. For an offer payload whose
`discount` is the in-range value `0` (and whose earlier required fields
`title` and `description` are truthy, so the loop reaches `discount`),
`createOffer` fails with `discount is required`: the offer validator's
required check tests truthiness and `0` is falsy. The product validator's
required check tests only `undefined`/`null`, so a product payload with
`price = 0` and `stock = 0` that is otherwise valid passes validation. -/
theorem C9_zero_discount_rejected_zero_price_accepted
    (st : Store) (d dp : Obj) (uid newId : String) (now : ℚ)
    (hd0 : getField d "discount" = some (.num 0))
    (ht : truthyOpt (getField d "title") = true)
    (hde : truthyOpt (getField d "description") = true)
    (hp : getField dp "price" = some (.num 0))
    (hs : getField dp "stock" = some (.num 0))
    (hother : ProductService.validateProductData
        (setField (setField dp "price" (.num 5)) "stock" (.num 5)) false = .ok ()) :
    OfferService.createOffer st d uid newId now = .error "discount is required" ∧
    ProductService.validateProductData dp false = .ok () := by
  constructor
  · have hreq : checkRequiredTruthy d
        (if false = true then []
         else ["title", "description", "discount", "shopId", "validFrom", "validTo"]) =
        .error "discount is required" := by
      show checkRequiredTruthy d
        ["title", "description", "discount", "shopId", "validFrom", "validTo"] = _
      rw [checkRequiredTruthy, if_pos ht, checkRequiredTruthy, if_pos hde,
        checkRequiredTruthy, hd0]
      rw [if_neg ?_]
      · rfl
      · norm_num [truthyOpt, truthy]
    rw [OfferService.createOffer, OfferService.validateOfferData,
      except_seq_of_error _ (except_seq_of_error _ hreq)]
  · set dp5 := setField (setField dp "price" (.num 5)) "stock" (.num 5) with hdp5
    rw [ProductService.validateProductData] at hother ⊢
    obtain ⟨h1, hother⟩ := except_seq_ok hother
    obtain ⟨h2, hother⟩ := except_seq_ok hother
    obtain ⟨h3, _⟩ := except_seq_ok hother
    have hgf : ∀ f : String, f ≠ "price" → f ≠ "stock" →
        getField dp5 f = getField dp f := by
      intro f hf1 hf2
      rw [hdp5, getField_setField_ne _ _ _ _ hf2, getField_setField_ne _ _ _ _ hf1]
    have e1 : checkRequiredPresent dp
        (if false = true then []
         else ["name", "description", "price", "category", "shopId", "stock"]) =
        .ok () := by
      rw [← h1]
      refine checkRequiredPresent_congr _ _ _ ?_
      intro f _
      by_cases hf1 : f = "price"
      · subst hf1
        rw [hp, hdp5, getField_setField_ne _ _ _ _ (by simp), getField_setField_self]
        rfl
      · by_cases hf2 : f = "stock"
        · subst hf2
          rw [hs, hdp5, getField_setField_self]
          rfl
        · rw [hgf f hf1 hf2]
    have e2 : strMinCheck dp "name" 2
        "Product name must be at least 2 characters long" = .ok () := by
      rw [strMinCheck_congr _ dp5 _ _ _ (hgf "name" (by simp) (by simp)).symm]
      exact h2
    have e3 : strMinCheck dp "description" 10
        "Product description must be at least 10 characters long" = .ok () := by
      rw [strMinCheck_congr _ dp5 _ _ _ (hgf "description" (by simp) (by simp)).symm]
      exact h3
    have e4 : (if (0:ℚ) < 0 then Except.error "Price must be a valid positive number"
        else Except.ok ()) = Except.ok () := if_neg (by norm_num)
    have e5 : (if (0:ℚ) < 0 ∨ (0:ℚ).den ≠ 1 then
        Except.error "Stock must be a valid non-negative integer"
        else Except.ok ()) = Except.ok () := if_neg (by norm_num)
    rw [except_seq_of_ok _ e1, except_seq_of_ok _ e2, except_seq_of_ok _ e3, hp, hs]
    show ((if (0:ℚ) < 0 then Except.error "Price must be a valid positive number"
        else Except.ok ()) >>= fun _ =>
      (if (0:ℚ) < 0 ∨ (0:ℚ).den ≠ 1 then
          Except.error "Stock must be a valid non-negative integer"
        else Except.ok ())) = Except.ok ()
    rw [except_seq_of_ok _ e4]
    exact e5

/-- A concrete otherwise-valid offer payload with discount 0. -/
def offerPayloadZero : Obj :=
  [("title", .str "Big Sale"), ("description", .str "Huge discounts now"),
   ("discount", .num 0), ("shopId", .str "s1"),
   ("validFrom", .num 1), ("validTo", .num 100)]

/-- A concrete product payload with zero price and zero stock. -/
def productPayloadZero : Obj :=
  [("name", .str "Gadget Pro"), ("description", .str "A very nice gadget"),
   ("price", .num 0), ("category", .str "Electronics"),
   ("shopId", .str "s1"), ("stock", .num 0)]

theorem C9_zero_discount_rejected_zero_price_accepted_witness :
    OfferService.createOffer storeOneShop offerPayloadZero "u" "o9" 5 =
      .error "discount is required" ∧
    ProductService.validateProductData productPayloadZero false = .ok () :=
  C9_zero_discount_rejected_zero_price_accepted storeOneShop offerPayloadZero
    productPayloadZero "u" "o9" 5 (by rfl) (by rfl) (by rfl) (by rfl) (by rfl)
    (by with_unfolding_all rfl)

/-! ### C8 -/

instance : IsTotal Obj (fun a b => recNum a "price" ≤ recNum b "price") :=
  ⟨fun _ _ => le_total _ _⟩

instance : IsTrans Obj (fun a b => recNum a "price" ≤ recNum b "price") :=
  ⟨fun _ _ _ h1 h2 => le_trans h1 h2⟩

instance : IsTotal Obj (fun a b => recNum b "createdAt" ≤ recNum a "createdAt") :=
  ⟨fun _ _ => (le_total _ _).symm⟩

instance : IsTrans Obj (fun a b => recNum b "createdAt" ≤ recNum a "createdAt") :=
  ⟨fun _ _ _ h1 h2 => le_trans h2 h1⟩

/-- C8. Sort order: whatever the stored collection state, the list
returned by `getProducts({sortBy:'price_low'})` is non-decreasing in
`price`, and the list returned by `getProducts({sortBy:'newest'})` is
non-increasing in creation time (timestamps modelled numerically). -/
theorem C8_sort_order (st : Store) :
    List.Sorted (fun a b => recNum a "price" ≤ recNum b "price")
      (ProductService.getProducts [("sortBy", some (.str "price_low"))] st) ∧
    List.Sorted (fun a b => recNum b "createdAt" ≤ recNum a "createdAt")
      (ProductService.getProducts [("sortBy", some (.str "newest"))] st) := by
  constructor
  · show List.Sorted _ (List.insertionSort _ _)
    exact List.sorted_insertionSort _ _
  · show List.Sorted _ (List.insertionSort _ _)
    exact List.sorted_insertionSort _ _

/-! ### C10 -/

theorem Store.get_put_same (st : Store) (c : Coll) (l : List Obj) :
    (st.put c l).get c = l := by
  cases c <;> rfl

/-- C10. Reserved-field overwrite on create. The gateway's fallback
`create` persists a record whose `id` is the freshly generated identifier
and whose `createdAt` is the current timestamp, whatever `data` carried
under those keys; and a successful `createShop` persists a record whose
`isActive`, `createdBy` and `stats` are the service defaults, whatever the
caller supplied, so none of these fields can be forged through the create
path. -/
theorem C10_reserved_fields_overwritten (st : Store) (c : Coll) (data : Obj)
    (uid newId : String) (now : ℚ) :
    (FirebaseService.create st c data newId now).1 = newId ∧
    (∀ r, (FirebaseService.create st c data newId now).2.get c = st.get c ++ [r] →
        getField r "id" = some (.str newId) ∧
        getField r "createdAt" = some (.num now)) ∧
    (∀ res st1, ShopService.createShop st data uid newId now = .ok (res, st1) →
        res = newId ∧
        ∃ r, st1.shops = st.shops ++ [r] ∧
          getField r "id" = some (.str newId) ∧
          getField r "createdAt" = some (.num now) ∧
          getField r "isActive" = some (.bool true) ∧
          getField r "createdBy" = some (.str uid) ∧
          getField r "stats" = some ShopService.shopZeroStats) := by
  have hitem : ∀ d : Obj,
      getField (FirebaseService.createdItem d newId now) "id" = some (.str newId) ∧
      getField (FirebaseService.createdItem d newId now) "createdAt" = some (.num now) := by
    intro d
    constructor
    · rw [FirebaseService.createdItem, getField_setField_ne _ _ _ _ (by simp),
        getField_setField_self]
    · rw [FirebaseService.createdItem, getField_setField_self]
  refine ⟨rfl, ?_, ?_⟩
  · intro r hr
    have : (FirebaseService.create st c data newId now).2.get c =
        st.get c ++ [FirebaseService.createdItem data newId now] :=
      Store.get_put_same st c _
    rw [this] at hr
    obtain rfl : FirebaseService.createdItem data newId now = r := by
      have h2 := List.append_cancel_left hr.symm
      injection h2 with h3 _
      exact h3.symm
    exact hitem data
  · intro res st1 h
    rcases hv : ShopService.validateShopData data false with e | u
    · rw [ShopService.createShop, except_seq_of_error _ hv] at h
      cases h
    · cases u
      rw [ShopService.createShop, except_seq_of_ok _ hv] at h
      injection h with h2
      injection h2 with hres hst1
      subst hres hst1
      refine ⟨rfl, FirebaseService.createdItem
        (mergeFields data
          [("isActive", .bool true), ("createdBy", .str uid),
           ("stats", ShopService.shopZeroStats)]) newId now, rfl, ?_⟩
      set enriched := mergeFields data
        [("isActive", .bool true), ("createdBy", .str uid),
         ("stats", ShopService.shopZeroStats)] with henr
      have hen : enriched =
          setField (setField (setField data "isActive" (.bool true))
            "createdBy" (.str uid)) "stats" ShopService.shopZeroStats := rfl
      refine ⟨(hitem enriched).1, (hitem enriched).2, ?_, ?_, ?_⟩
      · rw [FirebaseService.createdItem,
          getField_setField_ne _ _ _ _ (by simp),
          getField_setField_ne _ _ _ _ (by simp), hen,
          getField_setField_ne _ _ _ _ (by simp),
          getField_setField_ne _ _ _ _ (by simp),
          getField_setField_self]
      · rw [FirebaseService.createdItem,
          getField_setField_ne _ _ _ _ (by simp),
          getField_setField_ne _ _ _ _ (by simp), hen,
          getField_setField_ne _ _ _ _ (by simp),
          getField_setField_self]
      · rw [FirebaseService.createdItem,
          getField_setField_ne _ _ _ _ (by simp),
          getField_setField_ne _ _ _ _ (by simp), hen,
          getField_setField_self]

/-- A payload attempting to forge every reserved field. -/
def forgedPayload : Obj :=
  [("name", .str "Cool Shop"), ("description", .str "A wonderful shop indeed"),
   ("category", .str "X"), ("floor", .num 2), ("contact", .obj []),
   ("id", .str "FORGED"), ("createdAt", .num 999), ("isActive", .bool false),
   ("createdBy", .str "evil"), ("stats", .obj [("views", .num 100)])]

/-! ### C6 -/

theorem except_throw_seq {α β : Type} (m : String) (k : α → Except String β) :
    ((throw m : Except String α) >>= k) = .error m := rfl

/-- C6. Comparison bounds and aggregates. `compareProducts` rejects fewer
than 2 or more than 4 identifiers, and fewer than 2 resolving records,
each with an `InvalidArgumentError` message; on success it returns the
resolved products, the exact minimum, maximum and sum-over-count average
of their prices, duplicate-free category and shop reference lists covering
exactly the resolved products, the in-stock and out-of-stock counts, and a
feature table holding exactly the specification keys carried by at least
two of the compared products, each mapped to the per-carrier
(product, value) entries in product order. The hypothesis states that
stored specification objects have duplicate-free keys, as every JS object
does. -/
theorem C6_compareProducts_bounds_and_aggregates (st : Store)
    (productIds : List String)
    (hnodup : ∀ p ∈ ProductService.resolvedProducts st productIds,
      ((ProductService.specPairs p).map Prod.fst).Nodup) :
    (productIds.length < 2 →
      ProductService.compareProducts st productIds =
        .error "At least 2 products are required for comparison") ∧
    (4 < productIds.length →
      ProductService.compareProducts st productIds =
        .error "Maximum 4 products can be compared at once") ∧
    (¬ productIds.length < 2 → ¬ 4 < productIds.length →
      (ProductService.resolvedProducts st productIds).length < 2 →
      ProductService.compareProducts st productIds =
        .error "At least 2 valid products are required for comparison") ∧
    (∀ c, ProductService.compareProducts st productIds = .ok c →
      c.products = ProductService.resolvedProducts st productIds ∧
      c.products ≠ [] ∧
      (∀ p ∈ c.products, c.priceMin ≤ recNum p "price") ∧
      (∃ p ∈ c.products, recNum p "price" = c.priceMin) ∧
      (∀ p ∈ c.products, recNum p "price" ≤ c.priceMax) ∧
      (∃ p ∈ c.products, recNum p "price" = c.priceMax) ∧
      c.priceAverage * (c.products.length : ℚ) =
        (c.products.map (fun p => recNum p "price")).sum ∧
      c.categories.Nodup ∧
      (∀ v, v ∈ c.categories ↔ ∃ p ∈ c.products, getField p "category" = v) ∧
      c.shops.Nodup ∧
      (∀ v, v ∈ c.shops ↔ ∃ p ∈ c.products, getField p "shopId" = v) ∧
      c.inStock = c.products.countP ProductService.stockPositive ∧
      c.outOfStock = c.products.countP ProductService.stockZero ∧
      (∀ k l, ProductService.featLookup c.features k = some l ↔
        2 ≤ (ProductService.featureCarriers c.products k).length ∧
        l = (ProductService.featureCarriers c.products k).map
          (fun p => ProductService.mkEntry p (ProductService.specValD p k)))) := by
  refine ⟨?_, ?_, ?_, ?_⟩
  · intro h
    simp [ProductService.compareProducts, h, except_throw_seq]
  · intro h2
    by_cases h1 : productIds.length < 2
    · omega
    · simp [ProductService.compareProducts, h1, h2, except_throw_seq]
  · intro h1 h2 h3
    simp [ProductService.compareProducts, h1, h2, h3, except_throw_seq]
  · intro c h
    by_cases h1 : productIds.length < 2
    · simp [ProductService.compareProducts, h1, except_throw_seq] at h
    by_cases h2 : 4 < productIds.length
    · simp [ProductService.compareProducts, h1, h2, except_throw_seq] at h
    by_cases h3 : (ProductService.resolvedProducts st productIds).length < 2
    · simp [ProductService.compareProducts, h1, h2, h3, except_throw_seq] at h
    simp only [ProductService.compareProducts, if_neg h1, if_neg h2, if_neg h3,
      pure_bind] at h
    injection h with h
    rw [← h]
    set vps := ProductService.resolvedProducts st productIds with hvps
    have hne : vps ≠ [] := by
      intro hnil
      rw [hnil] at h3
      simp at h3
    have hpne : vps.map (fun p => recNum p "price") ≠ [] := by
      intro hc
      exact hne (by simpa using hc)
    refine ⟨rfl, hne, ?_, ?_, ?_, ?_, ?_, ?_, ?_, ?_, ?_, ?_, ?_, ?_⟩
    · intro p hp
      exact ProductService.listMin_le_mem _ _ (List.mem_map.mpr ⟨p, hp, rfl⟩)
    · obtain ⟨p, hp, hpe⟩ := List.mem_map.mp (ProductService.listMin_mem _ hpne)
      exact ⟨p, hp, hpe⟩
    · intro p hp
      exact ProductService.listMax_le_mem _ _ (List.mem_map.mpr ⟨p, hp, rfl⟩)
    · obtain ⟨p, hp, hpe⟩ := List.mem_map.mp (ProductService.listMax_mem _ hpne)
      exact ⟨p, hp, hpe⟩
    · refine div_mul_cancel₀ _ ?_
      exact Nat.cast_ne_zero.mpr (by omega)
    · exact ProductService.nodup_jsDedup _
    · intro v
      rw [ProductService.mem_jsDedup]
      exact List.mem_map
    · exact ProductService.nodup_jsDedup _
    · intro v
      rw [ProductService.mem_jsDedup]
      exact List.mem_map
    · exact (List.countP_eq_length_filter _ _).symm
    · exact (List.countP_eq_length_filter _ _).symm
    · intro k l
      rw [ProductService.extractCommonFeatures,
        ProductService.featLookup_filter_length _ _
          (ProductService.keys_nodup_collectFeatures _),
        ProductService.featLookup_collectFeatures,
        ProductService.entriesOf_eq_carriers _ _ hnodup]
      rcases hL : (ProductService.featureCarriers vps k).map
          (fun p => ProductService.mkEntry p (ProductService.specValD p k)) with _ | ⟨x, xs⟩
      · rw [ProductService.optAppend_nil]
        simp only [Option.none_bind]
        constructor
        · intro hc; cases hc
        · rintro ⟨hlen, _⟩
          have : (ProductService.featureCarriers vps k).length = 0 := by
            have := congrArg List.length hL
            simpa using this
          omega
      · rw [ProductService.optAppend_cons]
        simp only [Option.getD_none, List.nil_append, Option.some_bind]
        have hlen : (ProductService.featureCarriers vps k).length = (x :: xs).length := by
          have := congrArg List.length hL
          simpa using this
        by_cases hxl : 2 ≤ (x :: xs).length
        · rw [if_pos hxl]
          constructor
          · intro hsome
            injection hsome with hsome
            exact ⟨by omega, hsome.symm⟩
          · rintro ⟨_, hleq⟩
            rw [hleq]
        · rw [if_neg hxl]
          constructor
          · intro hc; cases hc
          · rintro ⟨hlen2, _⟩
            omega

/-- A product with a two-key specification object, for the C6 witness. -/
def comparisonProductA : Obj :=
  [("id", .str "p1"), ("name", .str "Gadget"), ("shopId", .str "s1"),
   ("price", .num 10), ("stock", .num 3), ("isActive", .bool true),
   ("createdAt", .num 1), ("category", .str "Electronics"),
   ("specifications", .obj [("Material", .str "Bamboo"), ("Weight", .str "50g")])]

/-- A product sharing the `Material` specification key with the first. -/
def comparisonProductB : Obj :=
  [("id", .str "p2"), ("name", .str "Widget"), ("shopId", .str "s2"),
   ("price", .num 20), ("stock", .num 0), ("category", .str "Electronics"),
   ("specifications", .obj [("Material", .str "Steel")])]

def storeComparison : Store :=
  { shops := [], products := [comparisonProductA, comparisonProductB], offers := [] }

theorem C6_compareProducts_bounds_and_aggregates_witness :
    ((["p1", "p2"] : List String).length < 2 →
      ProductService.compareProducts storeComparison ["p1", "p2"] =
        .error "At least 2 products are required for comparison") ∧
    (4 < (["p1", "p2"] : List String).length →
      ProductService.compareProducts storeComparison ["p1", "p2"] =
        .error "Maximum 4 products can be compared at once") ∧
    (¬ (["p1", "p2"] : List String).length < 2 →
      ¬ 4 < (["p1", "p2"] : List String).length →
      (ProductService.resolvedProducts storeComparison ["p1", "p2"]).length < 2 →
      ProductService.compareProducts storeComparison ["p1", "p2"] =
        .error "At least 2 valid products are required for comparison") ∧
    (∀ c, ProductService.compareProducts storeComparison ["p1", "p2"] = .ok c →
      c.products = ProductService.resolvedProducts storeComparison ["p1", "p2"] ∧
      c.products ≠ [] ∧
      (∀ p ∈ c.products, c.priceMin ≤ recNum p "price") ∧
      (∃ p ∈ c.products, recNum p "price" = c.priceMin) ∧
      (∀ p ∈ c.products, recNum p "price" ≤ c.priceMax) ∧
      (∃ p ∈ c.products, recNum p "price" = c.priceMax) ∧
      c.priceAverage * (c.products.length : ℚ) =
        (c.products.map (fun p => recNum p "price")).sum ∧
      c.categories.Nodup ∧
      (∀ v, v ∈ c.categories ↔ ∃ p ∈ c.products, getField p "category" = v) ∧
      c.shops.Nodup ∧
      (∀ v, v ∈ c.shops ↔ ∃ p ∈ c.products, getField p "shopId" = v) ∧
      c.inStock = c.products.countP ProductService.stockPositive ∧
      c.outOfStock = c.products.countP ProductService.stockZero ∧
      (∀ k l, ProductService.featLookup c.features k = some l ↔
        2 ≤ (ProductService.featureCarriers c.products k).length ∧
        l = (ProductService.featureCarriers c.products k).map
          (fun p => ProductService.mkEntry p (ProductService.specValD p k)))) :=
  C6_compareProducts_bounds_and_aggregates storeComparison ["p1", "p2"] (by decide)

theorem C10_reserved_fields_overwritten_witness :
    (FirebaseService.create storeOneShop .shops forgedPayload "fresh" 3).1 = "fresh" ∧
    (∀ r, (FirebaseService.create storeOneShop .shops forgedPayload "fresh" 3).2.get .shops =
        storeOneShop.get .shops ++ [r] →
        getField r "id" = some (.str "fresh") ∧
        getField r "createdAt" = some (.num 3)) ∧
    (∀ res st1, ShopService.createShop storeOneShop forgedPayload "u" "fresh" 3 =
        .ok (res, st1) →
        res = "fresh" ∧
        ∃ r, st1.shops = storeOneShop.shops ++ [r] ∧
          getField r "id" = some (.str "fresh") ∧
          getField r "createdAt" = some (.num 3) ∧
          getField r "isActive" = some (.bool true) ∧
          getField r "createdBy" = some (.str "u") ∧
          getField r "stats" = some ShopService.shopZeroStats) :=
  C10_reserved_fields_overwritten storeOneShop .shops forgedPayload "u" "fresh" 3

end SuperMall
